import Mathlib

/-
Verification development for the Aviiator demo betting platform
(backend/game/engine.js, backend/game/colorEngine.js, backend/game/index.js,
backend/game/rounds.js).

Modelling conventions.

* JavaScript numbers are IEEE-754 doubles.  Throughout the engines almost all
  quantities stay far below 2^53 and all decision thresholds are met with huge
  margins, so we model arithmetic over exact rationals (and over the reals for
  the transcendental crash-multiplier formulas).  The one place where the
  double representation genuinely changes values is the linear congruential
  generator: `MULTIPLIER * currentSeed` frequently exceeds 2^53, and the
  resulting rounding completely changes the low bits that survive `% MODULUS`.
  We therefore model that single multiplication/addition with an explicit
  round-to-53-significant-bits step (`roundDouble`), which makes the modelled
  generator bit-exact with the JavaScript one.

* `%` on JavaScript numbers keeps the sign of the dividend, i.e. `Int.tmod`.

* `x.toFixed(k)` followed by `parseFloat` rounds to `k` decimal places; the
  ECMAScript rule picks the larger candidate on ties, which is
  `fun x => ⌊x * 10^k + 1/2⌋ / 10^k`.  `Math.round` is `fun x => ⌊x + 1/2⌋`.

* JavaScript exceptions are modelled with `Except String`; out-of-range array
  reads (which yield `undefined` and then throw `TypeError` on property
  access) are modelled with `Option`/`Except` at the access site.

* `Real.sqrt` of a negative number is `0` in Mathlib whereas `Math.sqrt`
  yields `NaN` in JavaScript.  The Box–Muller transform hits this exactly when
  the generator state is negative (which does happen: the engine's base seed
  `0xABCD1234` wraps to a negative 32-bit integer before the XOR).  Every
  theorem whose conclusion depends on a Box–Muller value therefore carries a
  `0 ≤ crashFinalSeed …` hypothesis restricting it to the NaN-free domain;
  branch decisions and clamp bounds that are insensitive to the junk value are
  stated without it.
-/

namespace Aviiator

/-! ### IEEE double rounding and the deterministic PRNG (engine.js lines 52-63) -/

/-- Round an integer to 53 significant bits, ties to even, exactly as
conversion to an IEEE-754 double does.  The engines only feed this values of
magnitude below 2^62 (`|MULTIPLIER * cs| < 2^61` and the increment is tiny),
so a fixed ladder of thresholds suffices.  Values below 2^53 are exact. -/
def roundDouble (n : ℤ) : ℤ :=
  let a := n.natAbs
  let e : ℕ :=
    if a < 2 ^ 53 then 0
    else if a < 2 ^ 54 then 1
    else if a < 2 ^ 55 then 2
    else if a < 2 ^ 56 then 3
    else if a < 2 ^ 57 then 4
    else if a < 2 ^ 58 then 5
    else if a < 2 ^ 59 then 6
    else if a < 2 ^ 60 then 7
    else if a < 2 ^ 61 then 8
    else 9
  if e = 0 then n
  else
    let q := a / 2 ^ e
    let r := a % 2 ^ e
    let h := 2 ^ (e - 1)
    let q2 := if h < r ∨ (r = h ∧ q % 2 = 1) then q + 1 else q
    n.sign * (q2 * 2 ^ e : ℕ)

def MODULUS : ℤ := 2 ^ 31

def MULTIPLIER : ℤ := 1103515245

def INCREMENT : ℤ := 12345

/-- One step of `createDeterministicPRNG` / `createColorPRNG`:
`currentSeed = (MULTIPLIER * currentSeed + INCREMENT) % MODULUS`.
JavaScript evaluates the product and the sum in doubles (each rounded to 53
bits) and `%` keeps the sign of the dividend. -/
def prngStep (cs : ℤ) : ℤ :=
  Int.tmod (roundDouble (roundDouble (MULTIPLIER * cs) + INCREMENT)) MODULUS

/-- The value returned by a PRNG call with (already advanced) state `cs`:
`currentSeed / MODULUS`.  The division is exact in doubles, hence a rational. -/
def prngVal (cs : ℤ) : ℚ := (cs : ℚ) / (MODULUS : ℚ)

/-! ### 32-bit integer conversions and the rolling hash (engine.js lines 266-274) -/

/-- ECMAScript `ToInt32`: reduce mod 2^32 into the signed range. -/
def toInt32 (n : ℤ) : ℤ :=
  let m := n % 4294967296
  if m < 2147483648 then m else m - 4294967296

/-- One iteration of `hashString`: `hash = ((hash << 5) - hash) + char` followed
by `hash = hash & hash`.  The shift truncates to 32 bits; the subtraction and
addition are exact in doubles at these magnitudes; `& hash` is `ToInt32`. -/
def hashStep (h : ℤ) (c : ℕ) : ℤ :=
  toInt32 (toInt32 (h * 32) - h + c)

/-- `hashString` from engine.js (the identical copy in colorEngine.js is shared).
`charCodeAt` agrees with the Unicode code point for the basic plane, which
covers every identifier used here.  `Math.abs` at the end. -/
def hashString (s : String) : ℤ :=
  ((s.data.foldl (fun h ch => hashStep h ch.toNat) 0).natAbs : ℤ)

/-- Bitwise XOR of two JavaScript numbers: both sides are converted with
`ToInt32`, xored as 32-bit words, and the result is read back as signed. -/
def int32Xor (a b : ℤ) : ℤ :=
  toInt32 ((Nat.xor (a % 4294967296).toNat (b % 4294967296).toNat : ℕ) : ℤ)

/-! ### Rounding helpers (`toFixed`, `Math.round`) -/

/-- `parseFloat(x.toFixed(4))` on a nonnegative-exponent value: round to four
decimal places, ties toward the larger candidate. -/
noncomputable def round4 (x : ℝ) : ℝ := (⌊x * 10000 + 1 / 2⌋ : ℤ) / 10000

/-- Rational twin of `round4`, used to evaluate curve samples concretely. -/
def round4q (q : ℚ) : ℚ := (⌊q * 10000 + 1 / 2⌋ : ℤ) / 10000

/-- `parseFloat(x.toFixed(2))`: round to two decimal places, larger candidate
on ties.  All payout arithmetic is rational, so this one stays computable. -/
def round2q (q : ℚ) : ℚ := (⌊q * 100 + 1 / 2⌋ : ℤ) / 100

/-- `Math.round`: nearest integer, ties toward positive infinity. -/
noncomputable def jsRound (x : ℝ) : ℤ := ⌊x + 1 / 2⌋

/-! ### Crash engine (engine.js) -/

def ENGINE_SEED : ℤ := 0xABCD1234

/-- Seed derivation inside `generateCrashMultiplier`:
`finalSeed = (customSeed ?? ENGINE_CONFIG.SEED) ^ hashString(roundId)`.
Note `0xABCD1234` exceeds 2^31 - 1, so `ToInt32` inside the XOR makes the
default base seed negative. -/
def crashFinalSeed (roundId : String) (customSeed : Option ℤ) : ℤ :=
  int32Xor (customSeed.getD ENGINE_SEED) (hashString roundId)

/-- `generateNormalDistribution` (Box–Muller).  Returns the value and the
advanced generator state; `u1 = 1 - prng()`, `u2 = prng()`.  For a negative
generator state `u1` exceeds 1 and JavaScript produces NaN where Mathlib's
`Real.sqrt` yields 0 — see the NaN note in the header. -/
noncomputable def generateNormalDistribution (s : ℤ) : ℝ × ℤ :=
  let s1 := prngStep s
  let u1 : ℚ := 1 - prngVal s1
  let s2 := prngStep s1
  let u2 : ℚ := prngVal s2
  (Real.sqrt (-2 * Real.log (u1 : ℝ)) * Real.cos (2 * Real.pi * (u2 : ℝ)), s2)

/-- `generateLossMultiplier`: mean 1.3, standard deviation 0.2, clamped to the
loss range `[1.1, 2.0]` (max first, then min, as in the source). -/
noncomputable def generateLossMultiplier (s : ℤ) : ℝ × ℤ :=
  let p := generateNormalDistribution s
  (min (max (1.3 + p.1 * 0.2) 1.1) 2.0, p.2)

/-- `generateWinMultiplier`: `minWin * exp(v * ln(maxWin / minWin))` with
`minWin = 2.0`, capped at `maxWinMultiplier`. -/
noncomputable def generateWinMultiplier (s : ℤ) (maxWinMultiplier : ℚ) : ℝ × ℤ :=
  let s2 := prngStep s
  let v : ℚ := prngVal s2
  (min (2.0 * Real.exp ((v : ℝ) * Real.log ((maxWinMultiplier : ℝ) / 2.0)))
    ((maxWinMultiplier : ℝ)), s2)

/-- `calculateGameDuration`: `min(ln(m)·5000·(0.8 + ln(m+1)·0.2), 60000)`,
rounded with `Math.round`. -/
noncomputable def calculateGameDuration (m : ℝ) : ℤ :=
  let baseDuration := Real.log m * 5000
  jsRound (min (baseDuration * (0.8 + Real.log (m + 1) * 0.2)) 60000)

structure CurvePoint where
  time : ℤ
  multiplier : ℝ

/-- One iteration of the `generateCrashCurve` loop.  The accumulator carries
the points built so far in reverse order (so the head is `curve[i-1]`) and the
generator state.  Fluctuations are drawn only for `10 < i < 90`, matching
`i > 10 && i < points - 10`; the non-decrease guard reads the previous stored
(already rounded) multiplier, exactly as the source reads
`curve[i-1].multiplier`. -/
noncomputable def crashCurveStep (crashMultiplier duration growthFactor : ℝ)
    (acc : List CurvePoint × ℤ) (i : ℕ) : List CurvePoint × ℤ :=
  let progress : ℝ := (i : ℝ) / 99
  let time := duration * progress
  let base := Real.exp (growthFactor * (i : ℝ))
  let step1 : ℝ × ℤ :=
    if 10 < i ∧ i < 90 then
      let s2 := prngStep acc.2
      (base + ((prngVal s2 : ℝ) - 0.5) * 0.02 * base, s2)
    else (base, acc.2)
  let m2 : ℝ :=
    match acc.1 with
    | [] => step1.1
    | p :: _ => max step1.1 (p.multiplier * 0.999)
  let m3 := min m2 crashMultiplier
  (⟨jsRound time, round4 m3⟩ :: acc.1, step1.2)

/-- The post-loop fixup `curve[curve.length - 1].multiplier = crashMultiplier`,
acting on the reversed accumulator (whose head is the last point). -/
def setLastMultiplier (curveRev : List CurvePoint) (m : ℝ) : List CurvePoint :=
  match curveRev with
  | [] => []
  | p :: rest => { p with multiplier := m } :: rest

/-- `generateCrashCurve`: 100 points, exponential base growth with
`growthFactor = ln(crashMultiplier) / 99`, then the last point is forced to the
raw crash multiplier.  Returns the curve in display order plus the advanced
generator state. -/
noncomputable def generateCrashCurve (crashMultiplier duration : ℝ) (s : ℤ) :
    List CurvePoint × ℤ :=
  let growthFactor := Real.log crashMultiplier / 99
  let r := (List.range 100).foldl (crashCurveStep crashMultiplier duration growthFactor) ([], s)
  ((setLastMultiplier r.1 crashMultiplier).reverse, r.2)

/-- The raw (pre-rounding) crash multiplier and the generator state after the
branch draw, exactly the intermediate values of `generateCrashMultiplier`
before `toFixed(4)` is applied. -/
noncomputable def crashRaw (roundId : String) (lossBias maxWinMultiplier : ℚ)
    (customSeed : Option ℤ) : ℝ × ℤ :=
  let s1 := prngStep (crashFinalSeed roundId customSeed)
  let isLossRound : Bool := decide (prngVal s1 < lossBias)
  if isLossRound then generateLossMultiplier s1
  else generateWinMultiplier s1 maxWinMultiplier

structure CrashResult where
  crashMultiplier : ℝ
  roundType : String
  isLossRound : Bool
  gameDuration : ℤ
  crashCurve : List CurvePoint
  seed : ℤ
  generatedAt : ℤ
  lossBias : ℚ
  maxWinMultiplier : ℚ
  roundId : String

/-- `generateCrashMultiplier` (engine.js lines 74-135).  `roundId`, `lossBias`,
`maxWinMultiplier` and `customSeed` are the option fields; `now` stands for the
wall clock and feeds only the `generatedAt` timestamp.  Validation errors throw
before any state is touched. -/
noncomputable def generateCrashMultiplier (roundId : String) (lossBias : ℚ)
    (maxWinMultiplier : ℚ) (customSeed : Option ℤ) (now : ℤ) :
    Except String CrashResult :=
  if lossBias < 0 ∨ 1 < lossBias then .error "lossBias must be between 0 and 1"
  else if maxWinMultiplier < 1 then .error "maxWinMultiplier must be at least 1"
  else
    let finalSeed := crashFinalSeed roundId customSeed
    let s1 := prngStep finalSeed
    let isLossRound : Bool := decide (prngVal s1 < lossBias)
    let gen : ℝ × ℤ := crashRaw roundId lossBias maxWinMultiplier customSeed
    let gameDuration := calculateGameDuration gen.1
    let curve := generateCrashCurve gen.1 (gameDuration : ℝ) gen.2
    .ok
      { crashMultiplier := round4 gen.1
        roundType := if isLossRound then "loss" else "win"
        isLossRound := isLossRound
        gameDuration := gameDuration
        crashCurve := curve.1
        seed := finalSeed
        generatedAt := now
        lossBias := lossBias
        maxWinMultiplier := maxWinMultiplier
        roundId := roundId }

/-- `validateCashout` (engine.js lines 284-301). -/
def validateCashout (cashoutMultiplier crashMultiplier cashoutDelay gameDuration : ℚ) : Bool :=
  if crashMultiplier ≤ cashoutMultiplier then false
  else
    let cashoutTime := cashoutMultiplier / crashMultiplier * gameDuration
    let effectiveCashoutTime := cashoutTime + cashoutDelay
    decide (effectiveCashoutTime < gameDuration)

/-- `calculateProfit` (engine.js lines 309-313). -/
def calculateProfit (betAmount cashoutMultiplier : ℚ) : ℚ :=
  round2q (betAmount * cashoutMultiplier - betAmount)

/-! ### Color engine (colorEngine.js) -/

structure ColorProps where
  name : String
  payoutMultiplier : ℚ
  hexColor : String
  probability : ℚ
  deriving DecidableEq

/-- `COLOR_GAME_CONFIG.COLOR_PROPERTIES` as a lookup; `none` models the
`undefined` a JavaScript property read yields for an unknown key. -/
def colorProps (color : String) : Option ColorProps :=
  if color = "red" then some ⟨"Red", 2, "#EF4444", 0.40⟩
  else if color = "green" then some ⟨"Green", 3, "#10B981", 0.35⟩
  else if color = "violet" then some ⟨"Violet", 14, "#8B5CF6", 0.25⟩
  else none

/-- `Object.keys(COLOR_GAME_CONFIG.COLOR_PROPERTIES)` in insertion order. -/
def availableColors : List String := ["red", "green", "violet"]

def LOSS_BIAS : ℚ := 0.65

def MAX_WIN_CAP : ℚ := 10000

def HOUSE_EDGE : ℚ := 0.05

def MIN_BET_AMOUNT : ℚ := 1

def MAX_BET_AMOUNT : ℚ := 100000

/-- The source literal `BASE_SEED: 0xCOLOR1234` is not a valid JavaScript
numeric literal (the module cannot even be loaded as written), so no value is
recoverable from the source.  Every claim settled here either supplies a
`customSeed` or quantifies over the derived seed, so this placeholder value is
never relied upon. -/
def COLOR_BASE_SEED : ℤ := 0

/-- Seed derivation inside `generateWinningColor`. -/
def colorFinalSeed (roundId : String) (customSeed : Option ℤ) : ℤ :=
  int32Xor (customSeed.getD COLOR_BASE_SEED) (hashString roundId)

/-- The cumulative-probability loop of `selectColorByProbability`.  Colors not
present in `COLOR_PROPERTIES` never reach this loop (all callers pass subsets
of `availableColors`); a missing entry would throw in the source. -/
def selectColorByProbabilityGo (randomValue : ℚ) : ℚ → List String → Option String
  | _, [] => none
  | cum, c :: rest =>
    let cum2 := cum + (((colorProps c).map ColorProps.probability).getD 0)
    if randomValue ≤ cum2 then some c else selectColorByProbabilityGo randomValue cum2 rest

/-- `selectColorByProbability` (colorEngine.js lines 242-257): one draw, then
the cumulative loop, falling back to `colors[0]` (undefined when empty). -/
def selectColorByProbability (colors : List String) (s : ℤ) : Option String × ℤ :=
  let s2 := prngStep s
  let randomValue := prngVal s2
  (match selectColorByProbabilityGo randomValue 0 colors with
   | some c => some c
   | none => colors.head?, s2)

/-- `countConsecutiveWins`: walk backwards from the most recent entry while it
equals `color`; equivalently the length of the matching prefix of the
reversed list. -/
def countConsecutiveWins (color : String) (recentWinners : List String) : ℕ :=
  (recentWinners.reverse.takeWhile (fun c => c = color)).length

/-- `selectWinningColor` (colorEngine.js lines 184-201).  With three or more
recorded winners and a streak of at least `MAX_CONSECUTIVE_WINS = 3`, the
streak color is filtered out before the probability draw; otherwise (in either
the short-history or short-streak case) the full color list is used. -/
def selectWinningColor (s : ℤ) (recentWinners : List String) : Option String × ℤ :=
  if 3 ≤ recentWinners.length then
    let lastColor := recentWinners.getLast?.getD ""
    if 3 ≤ countConsecutiveWins lastColor recentWinners then
      selectColorByProbability (availableColors.filter (fun c => c ≠ lastColor)) s
    else
      selectColorByProbability availableColors s
  else
    selectColorByProbability availableColors s

/-- The last index at which `color` appears in `recentWinners`, or `-1`
(mirrors the `lastIndexMap` built by repeated `set` calls). -/
def lastIndexIn (recentWinners : List String) (color : String) : ℤ :=
  recentWinners.enum.foldl (fun acc p => if p.2 = color then (p.1 : ℤ) else acc) (-1)

/-- `findLeastRecentColor`: scan all colors starting from `colors[0]`, keeping
the first color whose last appearance index is strictly smallest. -/
def findLeastRecentColor (colors recentWinners : List String) : Option String :=
  if recentWinners.isEmpty then none
  else
    match colors with
    | [] => none
    | c0 :: _ =>
      some (colors.foldl (fun best c =>
        if lastIndexIn recentWinners c < lastIndexIn recentWinners best then c else best) c0)

/-- `weightedColors` from the fallback of `selectLosingColor`: each color is
repeated `Math.floor(payoutMultiplier * 10)` times (20 + 30 + 140 entries). -/
def weightedColors : List String :=
  availableColors.flatMap (fun c =>
    List.replicate (((colorProps c).map (fun p => (⌊p.payoutMultiplier * 10⌋).toNat)).getD 0) c)

/-- The weighted fallback block of `selectLosingColor`: one draw, index
`Math.floor(value * weightedColors.length)`; a negative draw produces a
negative index, hence `undefined` in the source and `none` here. -/
def weightedLosingPick (s : ℤ) : Option String × ℤ :=
  let s2 := prngStep s
  let idx : ℤ := ⌊prngVal s2 * (weightedColors.length : ℚ)⌋
  ((if idx < 0 then none else weightedColors[idx.toNat]?), s2)

/-- `selectLosingColor` (colorEngine.js lines 210-234): with nonempty history,
draw once and with value below 0.7 return the least recently seen color;
otherwise fall through to the weighted pick (which draws again). -/
def selectLosingColor (s : ℤ) (recentWinners : List String) : Option String × ℤ :=
  match (if 0 < recentWinners.length
         then findLeastRecentColor availableColors recentWinners else none) with
  | some leastRecent =>
    let s2 := prngStep s
    if prngVal s2 < 0.7 then (some leastRecent, s2)
    else weightedLosingPick s2
  | none => weightedLosingPick s

structure ColorResult where
  winningColor : String
  colorName : String
  hexColor : String
  payoutMultiplier : ℚ
  isWinRound : Bool
  isPlatformWin : Bool
  seed : ℤ
  generatedAt : ℤ
  roundId : String
  lossBias : ℚ
  probability : ℚ
  deriving DecidableEq

/-- `generateWinningColor` (colorEngine.js lines 120-175).  `now` feeds only
`generatedAt`.  A selector returning `undefined` (negative draw into the
weighted array) makes the subsequent `colorProps.name` access throw. -/
def generateWinningColor (roundId : String) (lossBias : ℚ) (customSeed : Option ℤ)
    (recentWinners : List String) (now : ℤ) : Except String ColorResult :=
  if lossBias < 0 ∨ 1 < lossBias then .error "lossBias must be between 0 and 1"
  else
    let finalSeed := colorFinalSeed roundId customSeed
    let s1 := prngStep finalSeed
    let isPlatformWin : Bool := decide (prngVal s1 < lossBias)
    let pick : Option String × ℤ :=
      if isPlatformWin then selectLosingColor s1 recentWinners
      else selectWinningColor s1 recentWinners
    match pick.1 with
    | none => .error "TypeError: cannot read properties of undefined"
    | some winningColor =>
      match colorProps winningColor with
      | none => .error "TypeError: cannot read properties of undefined"
      | some props =>
        .ok
          { winningColor := winningColor
            colorName := props.name
            hexColor := props.hexColor
            payoutMultiplier := props.payoutMultiplier
            isWinRound := !isPlatformWin
            isPlatformWin := isPlatformWin
            seed := finalSeed
            generatedAt := now
            roundId := roundId
            lossBias := lossBias
            probability := props.probability }

structure PayoutResult where
  isWin : Bool
  winningColor : String
  betColor : String
  betAmount : ℚ
  payout : ℚ
  profit : ℚ
  payoutMultiplier : ℚ
  houseEdge : ℚ
  isCapped : Bool
  deriving DecidableEq

/-- `calculateColorPayout` (colorEngine.js lines 323-376).  The source reads
`COLOR_PROPERTIES[winningColor]` up front and dereferences it in both branches
(the result object always contains `colorProps.payoutMultiplier`), so an
unknown winning color throws either way; we surface that at the lookup. -/
def calculateColorPayout (color : String) (amount : ℚ) (winningColor : String) :
    Except String PayoutResult :=
  if amount < MIN_BET_AMOUNT then .error "Bet amount must be at least 1"
  else if MAX_BET_AMOUNT < amount then .error "Bet amount cannot exceed 100000"
  else
    match colorProps winningColor with
    | none => .error "TypeError: cannot read properties of undefined"
    | some props =>
      let isWin : Bool := decide (color = winningColor)
      let pp : ℚ × ℚ :=
        if isWin then
          let basePayout := amount * props.payoutMultiplier
          let houseEdgeDeduction := basePayout * HOUSE_EDGE
          let payout1 := basePayout - houseEdgeDeduction
          let payout2 := if MAX_WIN_CAP < payout1 - amount then amount + MAX_WIN_CAP else payout1
          (payout2, payout2 - amount)
        else (0, -amount)
      let payout := round2q pp.1
      let profit := round2q pp.2
      .ok
        { isWin := isWin
          winningColor := winningColor
          betColor := color
          betAmount := amount
          payout := payout
          profit := profit
          payoutMultiplier := props.payoutMultiplier
          houseEdge := HOUSE_EDGE
          isCapped := decide (profit = MAX_WIN_CAP) }

structure TimelineEntry where
  time : ℚ
  color : String
  colorName : String
  hexColor : String
  isRevealPhase : Bool
  revealProgress : ℚ
  deriving DecidableEq

/-- A draw of a uniformly random color,
`colors[Math.floor(prng() * colors.length)]` (used twice in the timeline
loop).  A negative draw yields a negative index, hence `undefined`. -/
def randomColorDraw (s : ℤ) : Option String × ℤ :=
  let s2 := prngStep s
  let idx : ℤ := ⌊prngVal s2 * (availableColors.length : ℚ)⌋
  ((if idx < 0 then none else availableColors[idx.toNat]?), s2)

/-- One iteration of the `generateColorTimeline` loop, on the reversed
accumulator. -/
def timelineStep (winningColor : String) (revealStartStep totalSteps : ℕ)
    (acc : List TimelineEntry × ℤ) (step : ℕ) : Except String (List TimelineEntry × ℤ) :=
  let time : ℚ := (step : ℚ) * 200
  let draw : Except String (String × ℤ) :=
    if step < revealStartStep then
      match randomColorDraw acc.2 with
      | (some c, s2) => .ok (c, s2)
      | (none, _) => .error "TypeError: cannot read properties of undefined"
    else
      let revealProgress := ((step : ℚ) - (revealStartStep : ℚ)) /
        ((totalSteps : ℚ) - (revealStartStep : ℚ))
      let winningProbability := 0.3 + revealProgress * 0.7
      let s2 := prngStep acc.2
      if prngVal s2 < winningProbability then .ok (winningColor, s2)
      else
        match randomColorDraw s2 with
        | (some c, s3) => .ok (c, s3)
        | (none, _) => .error "TypeError: cannot read properties of undefined"
  match draw with
  | .error e => .error e
  | .ok (displayColor, s2) =>
    match colorProps displayColor with
    | none => .error "TypeError: cannot read properties of undefined"
    | some props =>
      let isReveal := decide (revealStartStep ≤ step)
      let rp : ℚ :=
        if revealStartStep ≤ step then
          ((step : ℚ) - (revealStartStep : ℚ)) / ((totalSteps : ℚ) - (revealStartStep : ℚ))
        else 0
      .ok (⟨time, displayColor, props.name, props.hexColor, isReveal, rp⟩ :: acc.1, s2)

/-- `generateColorTimeline` (colorEngine.js lines 386-433): 200 ms steps,
reveal phase in the last 20 %, and the final entry forced to the winning
color.  Returns the timeline in display order plus the generator state. -/
def generateColorTimeline (winningColor : String) (roundDuration : ℚ) (s : ℤ) :
    Except String (List TimelineEntry × ℤ) :=
  let totalSteps : ℕ := (⌊roundDuration / 200⌋).toNat
  let revealStartStep : ℕ := (⌊(totalSteps : ℚ) * 0.8⌋).toNat
  match (List.range totalSteps).foldlM (timelineStep winningColor revealStartStep totalSteps)
      (([] : List TimelineEntry), s) with
  | .error e => .error e
  | .ok r =>
    match r.1 with
    | [] => .ok ([], r.2)
    | e :: rest =>
      match colorProps winningColor with
      | none => .error "TypeError: cannot read properties of undefined"
      | some wprops =>
        let e2 : TimelineEntry :=
          { e with
            color := winningColor
            colorName := wprops.name
            hexColor := wprops.hexColor
            isRevealPhase := true
            revealProgress := 1 }
        .ok ((e2 :: rest).reverse, r.2)

/-! ### Game controller (index.js) -/

structure CashoutCheck where
  isValid : Bool
  profit : ℚ
  deriving DecidableEq

/-- `GameController.validateCrashCashout` (index.js lines 902-930), with the
option defaults `cashoutDelay = 100` and `gameDuration = 10000` resolved by the
caller.  On failure the profit is `-betAmount || 0`, which only remaps a
negative zero and is therefore plain negation on rationals. -/
def validateCrashCashout (cashoutMultiplier crashMultiplier cashoutDelay gameDuration
    betAmount : ℚ) : CashoutCheck :=
  let isValid := validateCashout cashoutMultiplier crashMultiplier cashoutDelay gameDuration
  { isValid := isValid
    profit := if isValid then calculateProfit betAmount cashoutMultiplier else -betAmount }

structure ColorBet where
  color : String
  amount : ℚ
  result : Option String
  payout : Option ℚ
  profit : Option ℚ
  deriving DecidableEq

/-- The slice of the controller's color-round object that
`processColorRoundPayouts` reads and writes (`winningColor`, `bets`,
`statistics.totalPayout`). -/
structure ColorRound where
  roundId : String
  winningColor : String
  bets : List ColorBet
  totalPayout : ℚ
  deriving DecidableEq

/-- `GameController.processColorRoundPayouts` (index.js lines 1150-1174).  The
`forEach` body calls `calculateColorPayout` without a try/catch, so a throw
from any bet propagates and aborts the whole loop; the `Except` error models
that abort (bets after the offending one are never settled and
`statistics.totalPayout` is never written). -/
def processColorRoundPayouts (round : ColorRound) : Except String ColorRound :=
  if round.bets.isEmpty then .ok round
  else
    match round.bets.foldlM
        (fun (acc : List ColorBet × ℚ) (bet : ColorBet) =>
          match calculateColorPayout bet.color bet.amount round.winningColor with
          | Except.error e => (Except.error e : Except String (List ColorBet × ℚ))
          | Except.ok payoutResult =>
            let bet2 : ColorBet :=
              { bet with
                result := some (if payoutResult.isWin then "win" else "loss")
                payout := some payoutResult.payout
                profit := some payoutResult.profit }
            Except.ok (bet2 :: acc.1,
              acc.2 + (if payoutResult.isWin then payoutResult.payout else 0)))
        (([] : List ColorBet), (0 : ℚ)) with
    | .error e => .error e
    | .ok r => .ok { round with bets := r.1.reverse, totalPayout := r.2 }

/-! ### Round lifecycle (rounds.js) -/

structure RoundStatistics where
  totalPlayers : ℕ
  totalBets : ℕ
  totalWagered : ℚ
  totalPayout : ℚ
  highestBet : ℚ
  highestWin : ℚ
  playersCashedOut : ℕ
  playersCrashed : ℕ
  winRate : Option ℚ
  crashRate : Option ℚ
  houseEdge : Option ℚ
  deriving DecidableEq

def initialStatistics : RoundStatistics :=
  { totalPlayers := 0, totalBets := 0, totalWagered := 0, totalPayout := 0,
    highestBet := 0, highestWin := 0, playersCashedOut := 0, playersCrashed := 0,
    winRate := none, crashRate := none, houseEdge := none }

structure Round where
  roundId : String
  lossBias : ℚ
  maxWinMultiplier : ℚ
  state : String
  startedAt : Option ℤ
  endedAt : Option ℤ
  crashMultiplier : Option ℝ
  roundType : Option String
  crashCurve : List CurvePoint
  gameDuration : ℤ
  generatedAt : Option ℤ
  crashedAt : Option ℤ
  statistics : RoundStatistics
  seed : Option ℤ

/-- JavaScript `options.x || default`: `0` is falsy, so a zero option also
falls back to the default. -/
def jsOrDefault (o : Option ℚ) (d : ℚ) : ℚ :=
  match o with
  | some v => if v = 0 then d else v
  | none => d

/-- The `Round` constructor (rounds.js lines 1567-1608): state `idle`, engine
parameters resolved with `||` against the defaults 0.8 and 100. -/
def Round.create (roundId : String) (lossBias maxWinMultiplier : Option ℚ) : Round :=
  { roundId := roundId
    lossBias := jsOrDefault lossBias 0.8
    maxWinMultiplier := jsOrDefault maxWinMultiplier 100
    state := "idle", startedAt := none, endedAt := none, crashMultiplier := none,
    roundType := none, crashCurve := [], gameDuration := 0, generatedAt := none,
    crashedAt := none, statistics := initialStatistics, seed := none }

/-- `Round.start`: only legal from `idle`; generates the outcome (a generator
throw is caught and also reported as failure with the round untouched), then
moves to `running`. -/
noncomputable def Round.start (r : Round) (now : ℤ) : Bool × Round :=
  if r.state ≠ "idle" then (false, r)
  else
    match generateCrashMultiplier r.roundId r.lossBias r.maxWinMultiplier none now with
    | .error _ => (false, r)
    | .ok g =>
      (true, { r with
        crashMultiplier := some g.crashMultiplier
        roundType := some g.roundType
        crashCurve := g.crashCurve
        gameDuration := g.gameDuration
        seed := some g.seed
        generatedAt := some g.generatedAt
        state := "running"
        startedAt := some now })

/-- `Round.end`: only legal from `running`; moves to `crashed`. -/
def Round.«end» (r : Round) (now : ℤ) : Bool × Round :=
  if r.state ≠ "running" then (false, r)
  else (true, { r with state := "crashed", endedAt := some now, crashedAt := some now })

/-- `Round.finalizeStatistics`. -/
def finalizeStatistics (st : RoundStatistics) : RoundStatistics :=
  let st1 :=
    if 0 < st.totalBets then
      { st with
        winRate := some ((st.playersCashedOut : ℚ) / (st.totalBets : ℚ) * 100)
        crashRate := some ((st.playersCrashed : ℚ) / (st.totalBets : ℚ) * 100) }
    else st
  if 0 < st1.totalWagered then
    { st1 with houseEdge := some ((st1.totalWagered - st1.totalPayout) / st1.totalWagered * 100) }
  else st1

/-- `Round.complete`: only legal from `crashed`; moves to `completed` and
finalizes statistics. -/
def Round.complete (r : Round) : Bool × Round :=
  if r.state ≠ "crashed" then (false, r)
  else (true, { r with state := "completed", statistics := finalizeStatistics r.statistics })

/-! ### Basic lemmas about the numeric plumbing -/

theorem MODULUS_pos : (0 : ℤ) < MODULUS := by
  unfold MODULUS
  norm_num

theorem roundDouble_nonneg {n : ℤ} (h : 0 ≤ n) : 0 ≤ roundDouble n := by
  have hb : ∀ (c : Prop) (inst : Decidable c) (x y : ℤ),
      0 ≤ x → 0 ≤ y → 0 ≤ (if c then x else y) := by
    intro c inst x y hx hy
    split <;> assumption
  unfold roundDouble
  exact hb _ _ _ _ h (mul_nonneg (Int.sign_nonneg.mpr h) (Int.natCast_nonneg _))

theorem prngStep_nonneg {s : ℤ} (h : 0 ≤ s) : 0 ≤ prngStep s := by
  unfold prngStep
  refine Int.tmod_nonneg _ ?_
  have h1 : 0 ≤ roundDouble (MULTIPLIER * s) :=
    roundDouble_nonneg (mul_nonneg (by unfold MULTIPLIER; norm_num) h)
  refine roundDouble_nonneg ?_
  have h2 : (0 : ℤ) ≤ INCREMENT := by unfold INCREMENT; norm_num
  omega

theorem prngStep_lt {s : ℤ} (h : 0 ≤ s) : prngStep s < MODULUS := by
  unfold prngStep
  exact Int.tmod_lt_of_pos _ MODULUS_pos

theorem prngVal_nonneg {s : ℤ} (h : 0 ≤ s) : 0 ≤ prngVal s := by
  unfold prngVal
  refine div_nonneg (by exact_mod_cast h) (by exact_mod_cast MODULUS_pos.le)

theorem prngVal_lt_one {s : ℤ} (h : s < MODULUS) : prngVal s < 1 := by
  unfold prngVal
  rw [div_lt_one (by exact_mod_cast MODULUS_pos)]
  exact_mod_cast h

/-! ### Lemmas about the rounding helpers -/

theorem round4_le (x : ℝ) : round4 x ≤ x + 1 / 20000 := by
  unfold round4
  rw [div_le_iff₀ (by norm_num : (0:ℝ) < 10000)]
  have h1 : ((⌊x * 10000 + 1 / 2⌋ : ℤ) : ℝ) ≤ x * 10000 + 1 / 2 := Int.floor_le _
  have h2 : (x + 1 / 20000) * 10000 = x * 10000 + 1 / 2 := by ring
  linarith

theorem le_round4 (x : ℝ) : x - 1 / 20000 ≤ round4 x := by
  unfold round4
  rw [le_div_iff₀ (by norm_num : (0:ℝ) < 10000)]
  have := Int.sub_one_lt_floor (x * 10000 + 1 / 2)
  have h2 : x * 10000 + 1 / 2 - 1 < (⌊x * 10000 + 1 / 2⌋ : ℝ) := by exact_mod_cast this
  nlinarith

theorem round4_mono {x y : ℝ} (h : x ≤ y) : round4 x ≤ round4 y := by
  unfold round4
  have h2 : ((⌊x * 10000 + 1 / 2⌋ : ℤ) : ℝ) ≤ ((⌊y * 10000 + 1 / 2⌋ : ℤ) : ℝ) := by
    exact_mod_cast Int.floor_le_floor (by nlinarith)
  gcongr

theorem round4_ratCast (q : ℚ) : round4 ((q : ℝ)) = ((round4q q : ℚ) : ℝ) := by
  unfold round4 round4q
  have : (((q : ℝ)) * 10000 + 1 / 2) = (((q * 10000 + 1 / 2 : ℚ) : ℝ)) := by push_cast; ring
  rw [this, Rat.floor_cast]
  push_cast
  ring

theorem round2q_le (q : ℚ) : round2q q ≤ q + 1 / 200 := by
  unfold round2q
  rw [div_le_iff₀ (by norm_num : (0:ℚ) < 100)]
  have h1 : ((⌊q * 100 + 1 / 2⌋ : ℤ) : ℚ) ≤ q * 100 + 1 / 2 := Int.floor_le _
  have h2 : (q + 1 / 200) * 100 = q * 100 + 1 / 2 := by ring
  linarith

theorem round2q_mono {p q : ℚ} (h : p ≤ q) : round2q p ≤ round2q q := by
  unfold round2q
  have h2 : ((⌊p * 100 + 1 / 2⌋ : ℤ) : ℚ) ≤ ((⌊q * 100 + 1 / 2⌋ : ℤ) : ℚ) := by
    exact_mod_cast Int.floor_le_floor (by nlinarith)
  gcongr

/-! ### Lemmas about the crash generator branches -/

/-- With valid parameters, `generateCrashMultiplier` succeeds and its fields
are the advertised functions of the raw multiplier. -/
theorem generateCrashMultiplier_ok (roundId : String) (lossBias maxWinMultiplier : ℚ)
    (customSeed : Option ℤ) (now : ℤ)
    (h1 : 0 ≤ lossBias) (h2 : lossBias ≤ 1) (h3 : 1 ≤ maxWinMultiplier) :
    generateCrashMultiplier roundId lossBias maxWinMultiplier customSeed now =
      Except.ok
        { crashMultiplier := round4 (crashRaw roundId lossBias maxWinMultiplier customSeed).1
          roundType :=
            if decide (prngVal (prngStep (crashFinalSeed roundId customSeed)) < lossBias)
            then "loss" else "win"
          isLossRound := decide (prngVal (prngStep (crashFinalSeed roundId customSeed)) < lossBias)
          gameDuration :=
            calculateGameDuration (crashRaw roundId lossBias maxWinMultiplier customSeed).1
          crashCurve :=
            (generateCrashCurve (crashRaw roundId lossBias maxWinMultiplier customSeed).1
              ((calculateGameDuration
                (crashRaw roundId lossBias maxWinMultiplier customSeed).1 : ℤ) : ℝ)
              (crashRaw roundId lossBias maxWinMultiplier customSeed).2).1
          seed := crashFinalSeed roundId customSeed
          generatedAt := now
          lossBias := lossBias
          maxWinMultiplier := maxWinMultiplier
          roundId := roundId } := by
  unfold generateCrashMultiplier
  rw [if_neg (by push_neg; exact ⟨h1, h2⟩), if_neg (not_lt.mpr h3)]

/-- The loss branch clamps the Box–Muller sample into `[1.1, 2.0]` whatever
the sample is. -/
theorem generateLossMultiplier_bounds (s : ℤ) :
    1.1 ≤ (generateLossMultiplier s).1 ∧ (generateLossMultiplier s).1 ≤ 2 := by
  show 1.1 ≤ min (max (1.3 + (generateNormalDistribution s).1 * 0.2) 1.1) 2.0 ∧
    min (max (1.3 + (generateNormalDistribution s).1 * 0.2) 1.1) 2.0 ≤ 2
  constructor
  · exact le_min (le_max_right _ _) (by norm_num)
  · exact le_trans (min_le_right _ _) (by norm_num)

/-- The win branch never exceeds the configured maximum. -/
theorem generateWinMultiplier_le (s : ℤ) (maxWinMultiplier : ℚ) :
    (generateWinMultiplier s maxWinMultiplier).1 ≤ ((maxWinMultiplier : ℚ) : ℝ) := by
  unfold generateWinMultiplier
  exact min_le_right _ _

/-- For a maximum below the `minWin` threshold 2, the exponential-form value
sits above the cap (the exponent is nonpositive and scaled by `v ≤ 1`), so the
clamp is exact: the raw win multiplier equals the configured maximum. -/
theorem generateWinMultiplier_eq_of_lt_two {s : ℤ} {maxWinMultiplier : ℚ}
    (hM1 : 1 ≤ maxWinMultiplier) (hM2 : maxWinMultiplier < 2)
    (hv1 : prngVal (prngStep s) ≤ 1) :
    (generateWinMultiplier s maxWinMultiplier).1 = ((maxWinMultiplier : ℚ) : ℝ) := by
  show min (2.0 * Real.exp (((prngVal (prngStep s) : ℚ) : ℝ) *
      Real.log ((maxWinMultiplier : ℝ) / 2.0))) ((maxWinMultiplier : ℝ)) = (maxWinMultiplier : ℝ)
  rw [show (2.0 : ℝ) = 2 by norm_num]
  refine min_eq_right ?_
  have hM1c : (1 : ℝ) ≤ (maxWinMultiplier : ℝ) := by exact_mod_cast hM1
  have hM2c : (maxWinMultiplier : ℝ) < 2 := by exact_mod_cast hM2
  have hMpos : (0 : ℝ) < (maxWinMultiplier : ℝ) / 2 := by linarith
  have hlogle : Real.log ((maxWinMultiplier : ℝ) / 2) ≤ 0 :=
    Real.log_nonpos (by linarith) (by linarith)
  have hvcast : ((prngVal (prngStep s) : ℚ) : ℝ) ≤ 1 := by exact_mod_cast hv1
  have hmul : Real.log ((maxWinMultiplier : ℝ) / 2) ≤
      ((prngVal (prngStep s) : ℚ) : ℝ) * Real.log ((maxWinMultiplier : ℝ) / 2) := by nlinarith
  have hexp : (maxWinMultiplier : ℝ) / 2 ≤
      Real.exp (((prngVal (prngStep s) : ℚ) : ℝ) * Real.log ((maxWinMultiplier : ℝ) / 2)) := by
    calc (maxWinMultiplier : ℝ) / 2 = Real.exp (Real.log ((maxWinMultiplier : ℝ) / 2)) := by
          rw [Real.exp_log hMpos]
      _ ≤ _ := Real.exp_le_exp.mpr hmul
  nlinarith

/-- The raw win multiplier is at least 1 for `v ∈ [0, 1]` and a valid max. -/
theorem generateWinMultiplier_ge_one {s : ℤ} {maxWinMultiplier : ℚ}
    (hM1 : 1 ≤ maxWinMultiplier) (hv0 : 0 ≤ prngVal (prngStep s))
    (hv1 : prngVal (prngStep s) ≤ 1) :
    (1 : ℝ) ≤ (generateWinMultiplier s maxWinMultiplier).1 := by
  rcases le_or_lt 2 maxWinMultiplier with h2M | hM2
  · show (1 : ℝ) ≤ min (2.0 * Real.exp (((prngVal (prngStep s) : ℚ) : ℝ) *
      Real.log ((maxWinMultiplier : ℝ) / 2.0))) ((maxWinMultiplier : ℝ))
    rw [show (2.0 : ℝ) = 2 by norm_num]
    refine le_min ?_ (by exact_mod_cast hM1)
    have h2Mc : (2 : ℝ) ≤ (maxWinMultiplier : ℝ) := by exact_mod_cast h2M
    have hlog : 0 ≤ Real.log ((maxWinMultiplier : ℝ) / 2) :=
      Real.log_nonneg (by linarith)
    have hv0c : (0 : ℝ) ≤ ((prngVal (prngStep s) : ℚ) : ℝ) := by exact_mod_cast hv0
    have := Real.one_le_exp (mul_nonneg hv0c hlog)
    nlinarith
  · rw [generateWinMultiplier_eq_of_lt_two hM1 hM2 hv1]
    exact_mod_cast hM1

/-- In the win branch, with a nonnegative loss bias, the state feeding the
`v` draw is nonnegative, so `v ∈ [0, 1)`. -/
theorem win_branch_v_bounds {s1 : ℤ} {lossBias : ℚ}
    (h1 : 0 ≤ lossBias) (hB : ¬ prngVal s1 < lossBias) :
    0 ≤ prngVal (prngStep s1) ∧ prngVal (prngStep s1) ≤ 1 := by
  have hs1 : 0 ≤ s1 := by
    by_contra hneg
    push_neg at hneg
    have : prngVal s1 < 0 := by
      unfold prngVal
      refine div_neg_of_neg_of_pos ?_ (by exact_mod_cast MODULUS_pos)
      exact_mod_cast hneg
    exact hB (lt_of_lt_of_le this h1)
  exact ⟨prngVal_nonneg (prngStep_nonneg hs1),
    le_of_lt (prngVal_lt_one (prngStep_lt hs1))⟩

theorem round4_one : round4 (1 : ℝ) = 1 := by
  unfold round4
  norm_num

theorem round4_two : round4 (2 : ℝ) = 2 := by
  unfold round4
  norm_num

theorem round4_onePointOne : round4 (1.1 : ℝ) = 1.1 := by
  unfold round4
  norm_num

/-! ### Lemmas about the crash curve and the color timeline -/

theorem crashCurveStep_fst (crashM dur g : ℝ) (acc : List CurvePoint × ℤ) (i : ℕ) :
    ((crashCurveStep crashM dur g acc i).1).length = acc.1.length + 1 := rfl

theorem crashCurve_fold_length (crashM dur g : ℝ) :
    ∀ (l : List ℕ) (acc : List CurvePoint × ℤ),
      ((l.foldl (crashCurveStep crashM dur g) acc).1).length = acc.1.length + l.length := by
  intro l
  induction l with
  | nil => intro acc; simp
  | cons x xs ih =>
    intro acc
    rw [List.foldl_cons, ih, crashCurveStep_fst]
    simp only [List.length_cons]
    omega

/-- The final sample of every generated crash curve carries exactly the raw
crash multiplier (the post-loop fixup). -/
theorem generateCrashCurve_getLast (crashM dur : ℝ) (s : ℤ) :
    ∃ t, ((generateCrashCurve crashM dur s).1).getLast? = some ⟨t, crashM⟩ := by
  unfold generateCrashCurve
  dsimp only
  have hlen := crashCurve_fold_length crashM dur (Real.log crashM / 99) (List.range 100) ([], s)
  rcases hrev : ((List.range 100).foldl
      (crashCurveStep crashM dur (Real.log crashM / 99)) ([], s)).1 with _ | ⟨p, rest⟩
  · rw [hrev] at hlen
    simp at hlen
  · refine ⟨p.time, ?_⟩
    rw [List.getLast?_reverse]
    rfl

/-- The final timeline entry always shows the winning color (the post-loop
override). -/
theorem generateColorTimeline_last (winningColor : String) (roundDuration : ℚ) (s : ℤ)
    (tl : List TimelineEntry) (st : ℤ)
    (hok : generateColorTimeline winningColor roundDuration s = Except.ok (tl, st))
    (e : TimelineEntry) (hlast : tl.getLast? = some e) : e.color = winningColor := by
  unfold generateColorTimeline at hok
  dsimp only at hok
  rcases hfold : List.foldlM
      (timelineStep winningColor ⌊((⌊roundDuration / 200⌋.toNat : ℕ) : ℚ) * 0.8⌋.toNat
        ⌊roundDuration / 200⌋.toNat)
      (([] : List TimelineEntry), s) (List.range ⌊roundDuration / 200⌋.toNat) with err | r
  · rw [hfold] at hok
    exact absurd hok (by simp)
  · rw [hfold] at hok
    dsimp only at hok
    rcases r with ⟨rl, rs⟩
    rcases rl with _ | ⟨e2, rest⟩
    · dsimp only at hok
      have hpair := Except.ok.inj hok
      have htl : tl = [] := by
        have := congrArg Prod.fst hpair
        exact this.symm
      rw [htl] at hlast
      simp at hlast
    · dsimp only at hok
      rcases hcp : colorProps winningColor with _ | wprops
      · rw [hcp] at hok
        exact absurd hok (by simp)
      · rw [hcp] at hok
        dsimp only at hok
        have hpair := Except.ok.inj hok
        have htl := congrArg Prod.fst hpair
        dsimp only at htl
        rw [← htl, List.getLast?_reverse] at hlast
        simp only [List.head?] at hlast
        cases Option.some.inj hlast
        rfl

/-! ### Lemmas about the color selectors -/

theorem selectColorByProbabilityGo_mem {rv : ℚ} :
    ∀ (cum : ℚ) (l : List String) (c : String),
      selectColorByProbabilityGo rv cum l = some c → c ∈ l := by
  intro cum l
  induction l generalizing cum with
  | nil => intro c h; simp [selectColorByProbabilityGo] at h
  | cons x xs ih =>
    intro c h
    unfold selectColorByProbabilityGo at h
    dsimp only at h
    split at h
    · exact (Option.some.injEq _ _ ▸ h) ▸ List.mem_cons_self x xs
    · exact List.mem_cons_of_mem x (ih _ c h)

theorem selectColorByProbability_mem {l : List String} {s : ℤ} {c : String}
    (h : (selectColorByProbability l s).1 = some c) : c ∈ l := by
  unfold selectColorByProbability at h
  dsimp only at h
  split at h
  · rename_i c2 heq
    cases Option.some.inj h
    exact selectColorByProbabilityGo_mem _ l _ heq
  · cases l with
    | nil => simp at h
    | cons x xs =>
      simp only [List.head?] at h
      cases Option.some.inj h
      exact List.mem_cons_self _ _

theorem countConsecutiveWins_streak (c : String) (ys : List String) :
    3 ≤ countConsecutiveWins c (ys ++ [c, c, c]) := by
  unfold countConsecutiveWins
  have h1 : (ys ++ [c, c, c]).reverse = c :: c :: c :: ys.reverse := by simp
  rw [h1]
  rw [List.takeWhile_cons_of_pos (by simp), List.takeWhile_cons_of_pos (by simp),
    List.takeWhile_cons_of_pos (by simp)]
  simp only [List.length_cons]
  omega

theorem selectWinningColor_breaks_streak {s : ℤ} {ys : List String} {c w : String}
    (h : (selectWinningColor s (ys ++ [c, c, c])).1 = some w) : w ≠ c := by
  unfold selectWinningColor at h
  rw [if_pos (by simp)] at h
  have hlast : (ys ++ [c, c, c]).getLast?.getD "" = c := by
    rw [show ys ++ [c, c, c] = (ys ++ [c, c]) ++ [c] by simp]
    rw [List.getLast?_concat]
    rfl
  rw [hlast] at h
  rw [if_pos (countConsecutiveWins_streak c ys)] at h
  have hmem := selectColorByProbability_mem h
  have := (List.mem_filter.mp hmem).2
  simpa using this

theorem foldl_min_choice_mem (f : String → ℤ) :
    ∀ (l : List String) (c0 : String),
      l.foldl (fun best c => if f c < f best then c else best) c0 ∈ c0 :: l := by
  intro l
  induction l with
  | nil => intro c0; simp
  | cons x xs ih =>
    intro c0
    rw [List.foldl_cons]
    rcases List.mem_cons.mp (ih (if f x < f c0 then x else c0)) with h | h
    · rw [h]
      split
      · exact List.mem_cons_of_mem _ (List.mem_cons_self _ _)
      · exact List.mem_cons_self _ _
    · exact List.mem_cons_of_mem _ (List.mem_cons_of_mem _ h)

theorem findLeastRecentColor_mem {recentWinners : List String} {c : String}
    (h : findLeastRecentColor availableColors recentWinners = some c) :
    c ∈ availableColors := by
  unfold findLeastRecentColor availableColors at h
  unfold availableColors
  split at h
  · exact absurd h (by simp)
  · dsimp only at h
    have hfold := foldl_min_choice_mem (lastIndexIn recentWinners)
      ["red", "green", "violet"] "red"
    rcases List.mem_cons.mp hfold with h2 | h2
    · rw [← Option.some.inj h, h2]
      exact List.mem_cons_self _ _
    · rw [← Option.some.inj h]
      exact h2

theorem weightedColors_eq :
    weightedColors = List.replicate 20 "red" ++ (List.replicate 30 "green" ++
      (List.replicate 140 "violet" ++ [])) := by
  have hr : (((colorProps "red").map (fun p => (⌊p.payoutMultiplier * 10⌋).toNat)).getD 0) = 20 := by
    show (⌊(2 : ℚ) * 10⌋).toNat = 20
    norm_num
    rfl
  have hg : (((colorProps "green").map
      (fun p => (⌊p.payoutMultiplier * 10⌋).toNat)).getD 0) = 30 := by
    show (⌊(3 : ℚ) * 10⌋).toNat = 30
    norm_num
    rfl
  have hv : (((colorProps "violet").map
      (fun p => (⌊p.payoutMultiplier * 10⌋).toNat)).getD 0) = 140 := by
    show (⌊(14 : ℚ) * 10⌋).toNat = 140
    norm_num
    rfl
  unfold weightedColors availableColors
  rw [List.flatMap_cons, List.flatMap_cons, List.flatMap_cons, List.flatMap_nil]
  rw [hr, hg, hv]

theorem weightedColors_mem {c : String} (h : c ∈ weightedColors) : c ∈ availableColors := by
  rw [weightedColors_eq] at h
  unfold availableColors
  rcases List.mem_append.mp h with h2 | h2
  · rw [List.eq_of_mem_replicate h2]
    exact List.mem_cons_self _ _
  · rcases List.mem_append.mp h2 with h3 | h3
    · rw [List.eq_of_mem_replicate h3]
      exact List.mem_cons_of_mem _ (List.mem_cons_self _ _)
    · rcases List.mem_append.mp h3 with h4 | h4
      · rw [List.eq_of_mem_replicate h4]
        exact List.mem_cons_of_mem _ (List.mem_cons_of_mem _ (List.mem_cons_self _ _))
      · simp at h4

theorem weightedLosingPick_mem {s : ℤ} {c : String}
    (h : (weightedLosingPick s).1 = some c) : c ∈ availableColors := by
  unfold weightedLosingPick at h
  dsimp only at h
  split at h
  · simp at h
  · exact weightedColors_mem (List.getElem?_mem h)

theorem selectLosingColor_mem {s : ℤ} {recentWinners : List String} {c : String}
    (h : (selectLosingColor s recentWinners).1 = some c) : c ∈ availableColors := by
  unfold selectLosingColor at h
  split at h
  · rename_i least heq
    dsimp only at h
    split at h
    · have hl : findLeastRecentColor availableColors recentWinners = some least := by
        split at heq
        · exact heq
        · exact absurd heq (by simp)
      cases Option.some.inj h
      exact findLeastRecentColor_mem hl
    · exact weightedLosingPick_mem h
  · exact weightedLosingPick_mem h

theorem selectWinningColor_mem {s : ℤ} {recentWinners : List String} {c : String}
    (h : (selectWinningColor s recentWinners).1 = some c) : c ∈ availableColors := by
  unfold selectWinningColor at h
  split at h
  · dsimp only at h
    split at h
    · have := selectColorByProbability_mem h
      exact (List.mem_filter.mp this).1
    · exact selectColorByProbability_mem h
  · exact selectColorByProbability_mem h

/-- Every successful `generateWinningColor` result names one of the three
configured colors. -/
theorem generateWinningColor_color_mem (roundId : String) (lossBias : ℚ)
    (customSeed : Option ℤ) (recentWinners : List String) (now : ℤ) (r : ColorResult)
    (hok : generateWinningColor roundId lossBias customSeed recentWinners now =
      Except.ok r) : r.winningColor ∈ availableColors := by
  unfold generateWinningColor at hok
  split at hok
  · exact absurd hok (by simp)
  · dsimp only at hok
    rcases hB : decide (prngVal (prngStep (colorFinalSeed roundId customSeed)) < lossBias) with
      _ | _
    · rw [hB] at hok
      simp only [Bool.false_eq_true, if_false] at hok
      rcases hpick : (selectWinningColor (prngStep (colorFinalSeed roundId customSeed))
          recentWinners).1 with _ | wc
      · rw [hpick] at hok
        exact absurd hok (by simp)
      · rw [hpick] at hok
        dsimp only at hok
        rcases hcp : colorProps wc with _ | props
        · rw [hcp] at hok
          exact absurd hok (by simp)
        · rw [hcp] at hok
          dsimp only at hok
          have hr := Except.ok.inj hok
          have hwc : r.winningColor = wc := by rw [← hr]
          rw [hwc]
          exact selectWinningColor_mem hpick
    · rw [hB] at hok
      rw [if_pos rfl] at hok
      rcases hpick : (selectLosingColor (prngStep (colorFinalSeed roundId customSeed))
          recentWinners).1 with _ | wc
      · rw [hpick] at hok
        exact absurd hok (by simp)
      · rw [hpick] at hok
        dsimp only at hok
        rcases hcp : colorProps wc with _ | props
        · rw [hcp] at hok
          exact absurd hok (by simp)
        · rw [hcp] at hok
          dsimp only at hok
          have hr := Except.ok.inj hok
          have hwc : r.winningColor = wc := by rw [← hr]
          rw [hwc]
          exact selectLosingColor_mem hpick

theorem round4_zero : round4 (0 : ℝ) = 0 := by
  unfold round4
  norm_num

theorem round4_nonneg {x : ℝ} (h : 0 ≤ x) : 0 ≤ round4 x := by
  have h2 := round4_mono h
  rwa [round4_zero] at h2

/-- Core step fact for the curve invariant: prepending the rounded, capped
sample `round4 (min m2 raw)` preserves the reverse-order chain (with the
`1/20000` rounding slack) and the per-sample bounds, provided `m2` is
nonnegative and dominates `0.999` times the previous stored sample. -/
theorem curveStep_core (raw m2 : ℝ) (t : ℤ) (lst : List CurvePoint) (hraw : 1 ≤ raw)
    (h0 : 0 ≤ m2)
    (hlb : ∀ a rest, lst = a :: rest → a.multiplier * 0.999 ≤ m2)
    (hchain : List.Chain' (fun b a => 0.999 * a.multiplier - 1 / 20000 ≤ b.multiplier) lst)
    (hbnd : ∀ p ∈ lst, 0 ≤ p.multiplier ∧ p.multiplier ≤ round4 raw) :
    List.Chain' (fun b a => 0.999 * a.multiplier - 1 / 20000 ≤ b.multiplier)
      ((⟨t, round4 (min m2 raw)⟩ : CurvePoint) :: lst) ∧
    ∀ p ∈ ((⟨t, round4 (min m2 raw)⟩ : CurvePoint) :: lst),
      0 ≤ p.multiplier ∧ p.multiplier ≤ round4 raw := by
  have hmin0 : 0 ≤ min m2 raw := le_min h0 (by linarith)
  constructor
  · rcases lst with _ | ⟨a, rest⟩
    · exact List.chain'_singleton _
    · rw [List.chain'_cons]
      refine ⟨?_, hchain⟩
      obtain ⟨ha0, haR⟩ := hbnd a (List.mem_cons_self a rest)
      have hm2 : a.multiplier * 0.999 ≤ m2 := hlb a rest rfl
      show 0.999 * a.multiplier - 1 / 20000 ≤ round4 (min m2 raw)
      rcases le_or_lt raw (a.multiplier * 0.999) with hcase | hcase
      · rw [min_eq_right (le_trans hcase hm2)]
        linarith
      · have hlo : a.multiplier * 0.999 ≤ min m2 raw := le_min hm2 hcase.le
        have hr4 := le_round4 (min m2 raw)
        linarith
  · intro p hp
    rcases List.mem_cons.mp hp with h | h
    · rw [h]
      exact ⟨round4_nonneg hmin0, round4_mono (min_le_right _ _)⟩
    · exact hbnd p h

/-- One curve-loop iteration preserves the invariant: nonnegative generator
state, reverse-order chain with rounding slack, and samples in
`[0, round4 raw]`. -/
theorem crashCurveStep_preserves (raw dur g : ℝ) (hraw : 1 ≤ raw)
    (acc : List CurvePoint × ℤ) (i : ℕ) (hs : 0 ≤ acc.2)
    (hchain : List.Chain' (fun b a => 0.999 * a.multiplier - 1 / 20000 ≤ b.multiplier) acc.1)
    (hbnd : ∀ p ∈ acc.1, 0 ≤ p.multiplier ∧ p.multiplier ≤ round4 raw) :
    0 ≤ (crashCurveStep raw dur g acc i).2 ∧
    List.Chain' (fun b a => 0.999 * a.multiplier - 1 / 20000 ≤ b.multiplier)
      (crashCurveStep raw dur g acc i).1 ∧
    ∀ p ∈ (crashCurveStep raw dur g acc i).1, 0 ≤ p.multiplier ∧ p.multiplier ≤ round4 raw := by
  rcases acc with ⟨lst, st⟩
  dsimp only at hs hchain hbnd
  have hv0 : (0 : ℝ) ≤ ((prngVal (prngStep st) : ℚ) : ℝ) := by
    exact_mod_cast prngVal_nonneg (prngStep_nonneg hs)
  have hexp := Real.exp_pos (g * (i : ℝ))
  by_cases hc : 10 < i ∧ i < 90
  · rcases lst with _ | ⟨a, rest⟩
    · simp only [crashCurveStep, hc, if_true, and_self, ite_true]
      refine ⟨prngStep_nonneg hs, ?_⟩
      exact curveStep_core raw _ _ [] hraw
        (by nlinarith [mul_nonneg hv0 hexp.le])
        (by intro a r h; simp at h) hchain hbnd
    · simp only [crashCurveStep, hc, if_true, and_self, ite_true]
      obtain ⟨ha0, haR⟩ := hbnd a (List.mem_cons_self a rest)
      refine ⟨prngStep_nonneg hs, ?_⟩
      exact curveStep_core raw _ _ (a :: rest) hraw
        (le_trans (mul_nonneg ha0 (by norm_num)) (le_max_right _ _))
        (by
          intro x r h
          injection h with h1 h2
          rw [← h1]
          exact le_max_right _ _) hchain hbnd
  · rcases lst with _ | ⟨a, rest⟩
    · simp only [crashCurveStep, hc, if_false, ite_false]
      refine ⟨hs, ?_⟩
      exact curveStep_core raw _ _ [] hraw hexp.le
        (by intro a r h; simp at h) hchain hbnd
    · simp only [crashCurveStep, hc, if_false, ite_false]
      obtain ⟨ha0, haR⟩ := hbnd a (List.mem_cons_self a rest)
      refine ⟨hs, ?_⟩
      exact curveStep_core raw _ _ (a :: rest) hraw
        (le_trans (mul_nonneg ha0 (by norm_num)) (le_max_right _ _))
        (by
          intro x r h
          injection h with h1 h2
          rw [← h1]
          exact le_max_right _ _) hchain hbnd

/-- The whole curve fold preserves the invariant. -/
theorem crashCurve_fold_invariant (raw dur g : ℝ) (hraw : 1 ≤ raw) :
    ∀ (l : List ℕ) (acc : List CurvePoint × ℤ),
      0 ≤ acc.2 →
      List.Chain' (fun b a => 0.999 * a.multiplier - 1 / 20000 ≤ b.multiplier) acc.1 →
      (∀ p ∈ acc.1, 0 ≤ p.multiplier ∧ p.multiplier ≤ round4 raw) →
      0 ≤ (l.foldl (crashCurveStep raw dur g) acc).2 ∧
      List.Chain' (fun b a => 0.999 * a.multiplier - 1 / 20000 ≤ b.multiplier)
        (l.foldl (crashCurveStep raw dur g) acc).1 ∧
      ∀ p ∈ (l.foldl (crashCurveStep raw dur g) acc).1,
        0 ≤ p.multiplier ∧ p.multiplier ≤ round4 raw := by
  intro l
  induction l with
  | nil => intro acc hs hc hb; exact ⟨hs, hc, hb⟩
  | cons x xs ih =>
    intro acc hs hc hb
    rw [List.foldl_cons]
    obtain ⟨hs2, hc2, hb2⟩ := crashCurveStep_preserves raw dur g hraw acc x hs hc hb
    exact ih _ hs2 hc2 hb2

/-- Every generated curve (with a raw multiplier at least 1 and a nonnegative
generator state) satisfies the display-order chain with rounding slack, and
every sample is at most `round4 raw + 1/20000`. -/
theorem generateCrashCurve_chain_and_bound (raw dur : ℝ) (s : ℤ) (hraw : 1 ≤ raw)
    (hs : 0 ≤ s) :
    List.Chain' (fun a b => 0.999 * a.multiplier - 1 / 20000 ≤ b.multiplier)
      (generateCrashCurve raw dur s).1 ∧
    ∀ p ∈ (generateCrashCurve raw dur s).1, p.multiplier ≤ round4 raw + 1 / 20000 := by
  unfold generateCrashCurve
  dsimp only
  obtain ⟨hst, hchain, hbnd⟩ := crashCurve_fold_invariant raw dur (Real.log raw / 99) hraw
    (List.range 100) ([], s) hs List.chain'_nil (by intro p hp; simp at hp)
  have hlen := crashCurve_fold_length raw dur (Real.log raw / 99) (List.range 100) ([], s)
  rcases hrev : ((List.range 100).foldl (crashCurveStep raw dur (Real.log raw / 99)) ([], s)).1
    with _ | ⟨p, rest⟩
  · rw [hrev] at hlen
    simp at hlen
  · rw [hrev] at hchain hbnd
    have hr4 := round4_le raw
    have hr4lo := le_round4 raw
    constructor
    · show List.Chain' (fun a b => 0.999 * a.multiplier - 1 / 20000 ≤ b.multiplier)
        (setLastMultiplier (p :: rest) raw).reverse
      rw [List.chain'_reverse]
      show List.Chain' _ ({ p with multiplier := raw } :: rest)
      rcases rest with _ | ⟨a, rest2⟩
      · exact List.chain'_singleton _
      · rw [List.chain'_cons]
        refine ⟨?_, (List.chain'_cons.mp hchain).2⟩
        obtain ⟨ha0, haR⟩ := hbnd a (by simp)
        show 0.999 * a.multiplier - 1 / 20000 ≤ raw
        linarith
    · intro q hq
      rw [List.mem_reverse] at hq
      show q.multiplier ≤ round4 raw + 1 / 20000
      rcases List.mem_cons.mp hq with h | h
      · rw [h]
        show raw ≤ round4 raw + 1 / 20000
        linarith
      · have hb := (hbnd q (List.mem_cons_of_mem _ h)).2
        linarith

/-- The raw crash multiplier is at least 1 (both branches). -/
theorem crashRaw_ge_one (roundId : String) (lossBias maxWinMultiplier : ℚ)
    (customSeed : Option ℤ) (h1 : 0 ≤ lossBias) (h3 : 1 ≤ maxWinMultiplier) :
    1 ≤ (crashRaw roundId lossBias maxWinMultiplier customSeed).1 := by
  rcases hB : decide (prngVal (prngStep (crashFinalSeed roundId customSeed)) < lossBias)
    with _ | _
  · have hcr : crashRaw roundId lossBias maxWinMultiplier customSeed =
        generateWinMultiplier (prngStep (crashFinalSeed roundId customSeed))
          maxWinMultiplier := by
      unfold crashRaw
      dsimp only
      rw [hB]
      rfl
    rw [hcr]
    have hnl := of_decide_eq_false hB
    obtain ⟨hv0, hv1⟩ := win_branch_v_bounds h1 hnl
    exact generateWinMultiplier_ge_one h3 hv0 hv1
  · have hcr : crashRaw roundId lossBias maxWinMultiplier customSeed =
        generateLossMultiplier (prngStep (crashFinalSeed roundId customSeed)) := by
      unfold crashRaw
      dsimp only
      rw [hB]
      rfl
    rw [hcr]
    have hb := (generateLossMultiplier_bounds (prngStep (crashFinalSeed roundId customSeed))).1
    linarith

set_option maxHeartbeats 1000000 in
/-- With a nonnegative derived seed, the generator state left by the branch
draw is nonnegative. -/
theorem crashRaw_state_nonneg (roundId : String) (lossBias maxWinMultiplier : ℚ)
    (customSeed : Option ℤ) (h : 0 ≤ crashFinalSeed roundId customSeed) :
    0 ≤ (crashRaw roundId lossBias maxWinMultiplier customSeed).2 := by
  have hs1 : 0 ≤ prngStep (crashFinalSeed roundId customSeed) := prngStep_nonneg h
  rcases hB : decide (prngVal (prngStep (crashFinalSeed roundId customSeed)) < lossBias)
    with _ | _
  · have hcr : crashRaw roundId lossBias maxWinMultiplier customSeed =
        generateWinMultiplier (prngStep (crashFinalSeed roundId customSeed))
          maxWinMultiplier := by
      unfold crashRaw
      dsimp only
      rw [hB]
      rfl
    rw [hcr]
    generalize hg : prngStep (crashFinalSeed roundId customSeed) = sg
    rw [hg] at hs1
    exact prngStep_nonneg hs1
  · have hcr : crashRaw roundId lossBias maxWinMultiplier customSeed =
        generateLossMultiplier (prngStep (crashFinalSeed roundId customSeed)) := by
      unfold crashRaw
      dsimp only
      rw [hB]
      rfl
    rw [hcr]
    generalize hg : prngStep (crashFinalSeed roundId customSeed) = sg
    rw [hg] at hs1
    show 0 ≤ (generateNormalDistribution sg).2
    exact prngStep_nonneg (prngStep_nonneg hs1)

/-! ### Claim theorems -/

/-- C1.  Determinism: with the round id, loss bias, maximum win multiplier and
custom seed fixed, two runs of `generateCrashMultiplier` (at different wall
clock times) agree on `crashMultiplier`, `roundType`, `gameDuration` and
`crashCurve`; and with round id, loss bias, custom seed and recent winners
fixed, two runs of `generateWinningColor` agree on `winningColor`,
`isWinRound` and `seed` — only the timestamp differs. -/
theorem generator_outputs_deterministic :
    (∀ (roundId : String) (lossBias maxWinMultiplier : ℚ) (customSeed : Option ℤ) (now1 now2 : ℤ),
      Except.map (fun r => (r.crashMultiplier, r.roundType, r.gameDuration, r.crashCurve))
          (generateCrashMultiplier roundId lossBias maxWinMultiplier customSeed now1) =
        Except.map (fun r => (r.crashMultiplier, r.roundType, r.gameDuration, r.crashCurve))
          (generateCrashMultiplier roundId lossBias maxWinMultiplier customSeed now2)) ∧
    (∀ (roundId : String) (lossBias : ℚ) (customSeed : Option ℤ)
        (recentWinners : List String) (now1 now2 : ℤ),
      Except.map (fun r => (r.winningColor, r.isWinRound, r.seed))
          (generateWinningColor roundId lossBias customSeed recentWinners now1) =
        Except.map (fun r => (r.winningColor, r.isWinRound, r.seed))
          (generateWinningColor roundId lossBias customSeed recentWinners now2)) := by
  constructor
  · intro roundId lossBias maxWinMultiplier customSeed now1 now2
    unfold generateCrashMultiplier
    split
    · rfl
    · split
      · rfl
      · rfl
  · intro roundId lossBias customSeed recentWinners now1 now2
    unfold generateWinningColor
    split
    · rfl
    · dsimp only
      split
      · rfl
      · split
        · rfl
        · rfl

/-- C2 (counterexample).  Two concrete violations of the claimed range
`crashMultiplier ∈ [1.0, maxWinMultiplier]`: (a) with `maxWinMultiplier = 1`
and `lossBias = 1` the round is a loss round whose multiplier is at least 1.1,
exceeding the maximum; (b) with `maxWinMultiplier = 1.55556` the win branch
clamps the raw multiplier to exactly 1.55556 and `toFixed(4)` rounds it UP to
1.5556 > 1.55556. -/
theorem crash_multiplier_range_counterexample :
    (∃ r, generateCrashMultiplier "r1" 1 1 (some 3583) 0 = Except.ok r ∧
      r.roundType = "loss" ∧ 1.1 ≤ r.crashMultiplier ∧ ¬(r.crashMultiplier ≤ 1)) ∧
    (∃ r, generateCrashMultiplier "r1" 0 1.55556 (some 3583) 0 = Except.ok r ∧
      r.roundType = "win" ∧ r.crashMultiplier = ((1.5556 : ℚ) : ℝ) ∧
      ¬(r.crashMultiplier ≤ ((1.55556 : ℚ) : ℝ))) := by
  have hs : crashFinalSeed "r1" (some 3583) = 0 := by decide
  have h1 : prngStep 0 = 12345 := by decide
  have h2 : prngStep 12345 = 1406932606 := by decide
  have hB1 : decide (prngVal (12345 : ℤ) < (1 : ℚ)) = true := by
    rw [decide_eq_true_iff]
    unfold prngVal MODULUS
    norm_num
  have hB0 : decide (prngVal (12345 : ℤ) < (0 : ℚ)) = false := by
    rw [decide_eq_false_iff_not]
    unfold prngVal MODULUS
    norm_num
  constructor
  · refine ⟨_, generateCrashMultiplier_ok "r1" 1 1 (some 3583) 0 (by norm_num) (by norm_num)
      (by norm_num), ?_, ?_, ?_⟩
    · show (if decide (prngVal (prngStep (crashFinalSeed "r1" (some 3583))) < (1 : ℚ))
        then "loss" else "win") = "loss"
      rw [hs, h1, hB1]
      rfl
    · show 1.1 ≤ round4 (crashRaw "r1" 1 1 (some 3583)).1
      have hcr : crashRaw "r1" 1 1 (some 3583) = generateLossMultiplier 12345 := by
        unfold crashRaw
        rw [hs, h1]
        dsimp only
        rw [hB1]
        rfl
      rw [hcr]
      calc (1.1 : ℝ) = round4 1.1 := round4_onePointOne.symm
        _ ≤ _ := round4_mono (generateLossMultiplier_bounds 12345).1
    · show ¬(round4 (crashRaw "r1" 1 1 (some 3583)).1 ≤ 1)
      intro hle
      have hcr : crashRaw "r1" 1 1 (some 3583) = generateLossMultiplier 12345 := by
        unfold crashRaw
        rw [hs, h1]
        dsimp only
        rw [hB1]
        rfl
      have h11 : (1.1 : ℝ) ≤ round4 (crashRaw "r1" 1 1 (some 3583)).1 := by
        rw [hcr]
        calc (1.1 : ℝ) = round4 1.1 := round4_onePointOne.symm
          _ ≤ _ := round4_mono (generateLossMultiplier_bounds 12345).1
      have : (1.1 : ℝ) ≤ 1 := le_trans h11 hle
      norm_num at this
  · refine ⟨_, generateCrashMultiplier_ok "r1" 0 1.55556 (some 3583) 0 (by norm_num)
      (by norm_num) (by norm_num), ?_, ?_, ?_⟩
    · show (if decide (prngVal (prngStep (crashFinalSeed "r1" (some 3583))) < (0 : ℚ))
        then "loss" else "win") = "win"
      rw [hs, h1, hB0]
      rfl
    · show round4 (crashRaw "r1" 0 1.55556 (some 3583)).1 = ((1.5556 : ℚ) : ℝ)
      have hcr : crashRaw "r1" 0 1.55556 (some 3583) =
          generateWinMultiplier 12345 1.55556 := by
        unfold crashRaw
        rw [hs, h1]
        dsimp only
        rw [hB0]
        rfl
      have hv1 : prngVal (prngStep 12345) ≤ 1 := by
        rw [h2]
        unfold prngVal MODULUS
        norm_num
      rw [hcr, generateWinMultiplier_eq_of_lt_two (by norm_num) (by norm_num) hv1,
        round4_ratCast]
      rw [show round4q 1.55556 = 1.5556 by unfold round4q; norm_num]
    · show ¬(round4 (crashRaw "r1" 0 1.55556 (some 3583)).1 ≤ ((1.55556 : ℚ) : ℝ))
      intro hle
      have hcr : crashRaw "r1" 0 1.55556 (some 3583) =
          generateWinMultiplier 12345 1.55556 := by
        unfold crashRaw
        rw [hs, h1]
        dsimp only
        rw [hB0]
        rfl
      have hv1 : prngVal (prngStep 12345) ≤ 1 := by
        rw [h2]
        unfold prngVal MODULUS
        norm_num
      rw [hcr, generateWinMultiplier_eq_of_lt_two (by norm_num) (by norm_num) hv1,
        round4_ratCast] at hle
      have h2c : (round4q 1.55556 : ℚ) ≤ 1.55556 := by exact_mod_cast hle
      rw [show round4q 1.55556 = 1.5556 by unfold round4q; norm_num] at h2c
      norm_num at h2c

/-- C2 (amended).  With valid parameters and a nonnegative derived seed (the
NaN-free domain, see the header note): the reported crash multiplier lies in
`[1.0, max 2 (round4 maxWinMultiplier)]`; loss-category multipliers lie in
`[1.1, 2.0]`; win-category multipliers do not exceed the 4-decimal rounding of
the maximum, which itself exceeds the configured maximum by at most 5·10⁻⁵;
and every successful `generateWinningColor` outcome is one of the configured
colors red, green, violet. -/
theorem crash_multiplier_bounds_and_color_range :
    (∀ (roundId : String) (lossBias maxWinMultiplier : ℚ) (customSeed : Option ℤ) (now : ℤ),
      0 ≤ lossBias → lossBias ≤ 1 → 1 ≤ maxWinMultiplier →
      0 ≤ crashFinalSeed roundId customSeed →
      ∃ r, generateCrashMultiplier roundId lossBias maxWinMultiplier customSeed now =
          Except.ok r ∧
        1 ≤ r.crashMultiplier ∧
        r.crashMultiplier ≤ max 2 (((round4q maxWinMultiplier : ℚ) : ℝ)) ∧
        ((round4q maxWinMultiplier : ℚ) : ℝ) ≤ (maxWinMultiplier : ℝ) + 1 / 20000 ∧
        (r.roundType = "loss" → 1.1 ≤ r.crashMultiplier ∧ r.crashMultiplier ≤ 2) ∧
        (r.roundType = "win" → r.crashMultiplier ≤ ((round4q maxWinMultiplier : ℚ) : ℝ))) ∧
    (∀ (roundId : String) (lossBias : ℚ) (customSeed : Option ℤ)
        (recentWinners : List String) (now : ℤ) (r : ColorResult),
      generateWinningColor roundId lossBias customSeed recentWinners now = Except.ok r →
      r.winningColor ∈ availableColors) := by
  constructor
  · intro roundId lossBias maxWinMultiplier customSeed now h1 h2 h3 _hseed
    refine ⟨_, generateCrashMultiplier_ok roundId lossBias maxWinMultiplier customSeed now
      h1 h2 h3, ?_⟩
    have hcastle : ((round4q maxWinMultiplier : ℚ) : ℝ) ≤ (maxWinMultiplier : ℝ) + 1 / 20000 := by
      have := round4_le ((maxWinMultiplier : ℚ) : ℝ)
      rw [round4_ratCast] at this
      exact this
    rcases hB : decide (prngVal (prngStep (crashFinalSeed roundId customSeed)) < lossBias) with
      _ | _
    · -- win branch
      have hcr : crashRaw roundId lossBias maxWinMultiplier customSeed =
          generateWinMultiplier (prngStep (crashFinalSeed roundId customSeed))
            maxWinMultiplier := by
        unfold crashRaw
        dsimp only
        rw [hB]
        rfl
      have hnl := of_decide_eq_false hB
      obtain ⟨hv0, hv1⟩ := win_branch_v_bounds h1 hnl
      have hge : (1 : ℝ) ≤ (crashRaw roundId lossBias maxWinMultiplier customSeed).1 := by
        rw [hcr]
        exact generateWinMultiplier_ge_one h3 hv0 hv1
      have hle : (crashRaw roundId lossBias maxWinMultiplier customSeed).1 ≤
          ((maxWinMultiplier : ℚ) : ℝ) := by
        rw [hcr]
        exact generateWinMultiplier_le _ _
      refine ⟨?_, ?_, hcastle, ?_, ?_⟩
      · calc (1 : ℝ) = round4 1 := round4_one.symm
          _ ≤ _ := round4_mono hge
      · refine le_trans ?_ (le_max_right _ _)
        calc round4 (crashRaw roundId lossBias maxWinMultiplier customSeed).1 ≤
            round4 ((maxWinMultiplier : ℚ) : ℝ) := round4_mono hle
          _ = ((round4q maxWinMultiplier : ℚ) : ℝ) := round4_ratCast _
      · intro hlt
        have hlt2 : ("win" : String) = "loss" := hlt
        simp at hlt2
      · intro _
        calc round4 (crashRaw roundId lossBias maxWinMultiplier customSeed).1 ≤
            round4 ((maxWinMultiplier : ℚ) : ℝ) := round4_mono hle
          _ = ((round4q maxWinMultiplier : ℚ) : ℝ) := round4_ratCast _
    · -- loss branch
      have hcr : crashRaw roundId lossBias maxWinMultiplier customSeed =
          generateLossMultiplier (prngStep (crashFinalSeed roundId customSeed)) := by
        unfold crashRaw
        dsimp only
        rw [hB]
        rfl
      obtain ⟨hge, hle⟩ := generateLossMultiplier_bounds
        (prngStep (crashFinalSeed roundId customSeed))
      have hge4 : (1.1 : ℝ) ≤ round4 (crashRaw roundId lossBias maxWinMultiplier customSeed).1 := by
        rw [hcr]
        calc (1.1 : ℝ) = round4 1.1 := round4_onePointOne.symm
          _ ≤ _ := round4_mono hge
      have hle4 : round4 (crashRaw roundId lossBias maxWinMultiplier customSeed).1 ≤ 2 := by
        rw [hcr]
        calc round4 _ ≤ round4 2 := round4_mono hle
          _ = 2 := round4_two
      refine ⟨by linarith, le_trans hle4 (le_max_left _ _), hcastle, ?_, ?_⟩
      · intro _
        exact ⟨hge4, hle4⟩
      · intro hwin
        have hwin2 : ("loss" : String) = "win" := hwin
        simp at hwin2
  · intro roundId lossBias customSeed recentWinners now r hok
    exact generateWinningColor_color_mem roundId lossBias customSeed recentWinners now r hok

/-- C2 witness. -/
theorem crash_multiplier_bounds_witness :
    ((0 : ℚ) ≤ 1 / 2 ∧ (1 / 2 : ℚ) ≤ 1 ∧ (1 : ℚ) ≤ 10 ∧
      0 ≤ crashFinalSeed "r1" (some 3583)) ∧
    (∃ r, generateCrashMultiplier "r1" (1 / 2) 10 (some 3583) 0 = Except.ok r ∧
      1 ≤ r.crashMultiplier ∧
      r.crashMultiplier ≤ max 2 (((round4q 10 : ℚ) : ℝ)) ∧
      ((round4q 10 : ℚ) : ℝ) ≤ ((10 : ℚ) : ℝ) + 1 / 20000 ∧
      (r.roundType = "loss" → 1.1 ≤ r.crashMultiplier ∧ r.crashMultiplier ≤ 2) ∧
      (r.roundType = "win" → r.crashMultiplier ≤ ((round4q 10 : ℚ) : ℝ))) :=
  ⟨⟨by norm_num, by norm_num, by norm_num, by decide⟩,
    crash_multiplier_bounds_and_color_range.1 "r1" (1 / 2) 10 (some 3583) 0
      (by norm_num) (by norm_num) (by norm_num) (by decide)⟩

/-- C3 (counterexample).  With round id "r1", loss bias 0, maximum 1.23456789
and custom seed 3583, the win branch clamps the raw multiplier to exactly
1.23456789; the final curve sample carries that raw value, but the reported
`crashMultiplier` is the 4-decimal rounding 1.2346 — the reveal series does
NOT end exactly on the reported outcome. -/
theorem crash_curve_last_vs_reported :
    ∃ r, generateCrashMultiplier "r1" 0 1.23456789 (some 3583) 0 = Except.ok r ∧
      r.crashMultiplier = ((1.2346 : ℚ) : ℝ) ∧
      ∃ t, r.crashCurve.getLast? = some ⟨t, ((1.23456789 : ℚ) : ℝ)⟩ ∧
        ¬(((1.23456789 : ℚ) : ℝ) = r.crashMultiplier) := by
  have hs : crashFinalSeed "r1" (some 3583) = 0 := by decide
  have h1 : prngStep 0 = 12345 := by decide
  have h2 : prngStep 12345 = 1406932606 := by decide
  have hB0 : decide (prngVal (12345 : ℤ) < (0 : ℚ)) = false := by
    rw [decide_eq_false_iff_not]
    unfold prngVal MODULUS
    norm_num
  have hv1 : prngVal (prngStep 12345) ≤ 1 := by
    rw [h2]
    unfold prngVal MODULUS
    norm_num
  have hcr : crashRaw "r1" 0 1.23456789 (some 3583) =
      generateWinMultiplier 12345 1.23456789 := by
    unfold crashRaw
    rw [hs, h1]
    dsimp only
    rw [hB0]
    rfl
  have hraw : (crashRaw "r1" 0 1.23456789 (some 3583)).1 = ((1.23456789 : ℚ) : ℝ) := by
    rw [hcr]
    exact generateWinMultiplier_eq_of_lt_two (by norm_num) (by norm_num) hv1
  have hrep : round4 (crashRaw "r1" 0 1.23456789 (some 3583)).1 = ((1.2346 : ℚ) : ℝ) := by
    rw [hraw, round4_ratCast]
    rw [show round4q 1.23456789 = 1.2346 by unfold round4q; norm_num]
  refine ⟨_, generateCrashMultiplier_ok "r1" 0 1.23456789 (some 3583) 0 (by norm_num)
    (by norm_num) (by norm_num), hrep, ?_⟩
  obtain ⟨t, hlast⟩ := generateCrashCurve_getLast
    (crashRaw "r1" 0 1.23456789 (some 3583)).1
    ((calculateGameDuration (crashRaw "r1" 0 1.23456789 (some 3583)).1 : ℤ) : ℝ)
    (crashRaw "r1" 0 1.23456789 (some 3583)).2
  refine ⟨t, ?_, ?_⟩
  · show ((generateCrashCurve (crashRaw "r1" 0 1.23456789 (some 3583)).1
        ((calculateGameDuration (crashRaw "r1" 0 1.23456789 (some 3583)).1 : ℤ) : ℝ)
        (crashRaw "r1" 0 1.23456789 (some 3583)).2).1).getLast? =
      some ⟨t, ((1.23456789 : ℚ) : ℝ)⟩
    rw [← hraw]
    exact hlast
  · show ¬(((1.23456789 : ℚ) : ℝ) = round4 (crashRaw "r1" 0 1.23456789 (some 3583)).1)
    rw [hrep]
    intro h
    have hq : (1.23456789 : ℚ) = 1.2346 := by exact_mod_cast h
    norm_num at hq

/-- C3 (amended).  End-pinning, as the code actually implements it: for every
valid crash round the final curve sample carries the RAW crash multiplier `m`,
the reported `crashMultiplier` is its 4-decimal rounding `round4 m` (so the
two agree only up to `1/20000`); and the final entry of every successfully
generated color timeline shows exactly the predetermined winning color. -/
theorem curve_and_timeline_end_pinning :
    (∀ (roundId : String) (lossBias maxWinMultiplier : ℚ) (customSeed : Option ℤ) (now : ℤ),
      0 ≤ lossBias → lossBias ≤ 1 → 1 ≤ maxWinMultiplier →
      ∃ r t m, generateCrashMultiplier roundId lossBias maxWinMultiplier customSeed now =
          Except.ok r ∧
        r.crashCurve.getLast? = some ⟨t, m⟩ ∧
        r.crashMultiplier = round4 m ∧
        m - 1 / 20000 ≤ r.crashMultiplier ∧ r.crashMultiplier ≤ m + 1 / 20000) ∧
    (∀ (winningColor : String) (roundDuration : ℚ) (s : ℤ)
        (tl : List TimelineEntry) (st : ℤ) (e : TimelineEntry),
      generateColorTimeline winningColor roundDuration s = Except.ok (tl, st) →
      tl.getLast? = some e → e.color = winningColor) := by
  constructor
  · intro roundId lossBias maxWinMultiplier customSeed now h1 h2 h3
    obtain ⟨t, hlast⟩ := generateCrashCurve_getLast
      (crashRaw roundId lossBias maxWinMultiplier customSeed).1
      ((calculateGameDuration (crashRaw roundId lossBias maxWinMultiplier customSeed).1 : ℤ) : ℝ)
      (crashRaw roundId lossBias maxWinMultiplier customSeed).2
    refine ⟨_, t, (crashRaw roundId lossBias maxWinMultiplier customSeed).1,
      generateCrashMultiplier_ok roundId lossBias maxWinMultiplier customSeed now h1 h2 h3,
      hlast, rfl, ?_, ?_⟩
    · exact le_round4 _
    · exact round4_le _
  · intro winningColor roundDuration s tl st e hok hlast
    exact generateColorTimeline_last winningColor roundDuration s tl st hok e hlast

/-- C3 witness: the crash half at a valid concrete input, and the timeline
half at the one-step timeline of a 200 ms round seeded with 0, whose single
entry is forced to the winning color red. -/
theorem curve_and_timeline_end_pinning_witness :
    ((0 : ℚ) ≤ 1 / 2 ∧ (1 / 2 : ℚ) ≤ 1 ∧ (1 : ℚ) ≤ 10 ∧
      (∃ r t m, generateCrashMultiplier "r1" (1 / 2) 10 (some 3583) 0 = Except.ok r ∧
        r.crashCurve.getLast? = some ⟨t, m⟩ ∧
        r.crashMultiplier = round4 m ∧
        m - 1 / 20000 ≤ r.crashMultiplier ∧ r.crashMultiplier ≤ m + 1 / 20000)) ∧
    (generateColorTimeline "red" 200 0 =
        Except.ok ([⟨0, "red", "Red", "#EF4444", true, 1⟩], 12345) ∧
      ([(⟨0, "red", "Red", "#EF4444", true, 1⟩ : TimelineEntry)].getLast? =
        some ⟨0, "red", "Red", "#EF4444", true, 1⟩) ∧
      TimelineEntry.color ⟨0, "red", "Red", "#EF4444", true, 1⟩ = "red") := by
  have htl : generateColorTimeline "red" 200 0 =
      Except.ok ([⟨0, "red", "Red", "#EF4444", true, 1⟩], 12345) := by
    have h1 : prngStep 0 = 12345 := by decide
    have hv : prngVal 12345 = 12345 / 2147483648 := by
      unfold prngVal MODULUS
      norm_num
    simp only [generateColorTimeline]
    norm_num [List.range_succ, List.foldlM]
    simp only [timelineStep]
    norm_num [h1, hv, colorProps]
  refine ⟨⟨by norm_num, by norm_num, by norm_num,
    curve_and_timeline_end_pinning.1 "r1" (1 / 2) 10 (some 3583) 0 (by norm_num) (by norm_num)
      (by norm_num)⟩, htl, rfl,
    curve_and_timeline_end_pinning.2 "red" 200 0 _ _ _ htl rfl⟩

/-- C4 (counterexample).  With round id "r1", loss bias 0, maximum 1.23454 and
custom seed 3583, the raw win multiplier is exactly 1.23454; `toFixed(4)`
rounds the reported `crashMultiplier` DOWN to 1.2345, while the final curve
sample keeps the raw 1.23454 — a sample strictly above the final crash
multiplier, refuting the claimed cap. -/
theorem crash_curve_sample_above_final :
    ∃ r, generateCrashMultiplier "r1" 0 1.23454 (some 3583) 0 = Except.ok r ∧
      r.crashMultiplier = ((1.2345 : ℚ) : ℝ) ∧
      ∃ p ∈ r.crashCurve, ¬(p.multiplier ≤ r.crashMultiplier) := by
  have hs : crashFinalSeed "r1" (some 3583) = 0 := by decide
  have h1 : prngStep 0 = 12345 := by decide
  have h2 : prngStep 12345 = 1406932606 := by decide
  have hB0 : decide (prngVal (12345 : ℤ) < (0 : ℚ)) = false := by
    rw [decide_eq_false_iff_not]
    unfold prngVal MODULUS
    norm_num
  have hv1 : prngVal (prngStep 12345) ≤ 1 := by
    rw [h2]
    unfold prngVal MODULUS
    norm_num
  have hcr : crashRaw "r1" 0 1.23454 (some 3583) =
      generateWinMultiplier 12345 1.23454 := by
    unfold crashRaw
    rw [hs, h1]
    dsimp only
    rw [hB0]
    rfl
  have hraw : (crashRaw "r1" 0 1.23454 (some 3583)).1 = ((1.23454 : ℚ) : ℝ) := by
    rw [hcr]
    exact generateWinMultiplier_eq_of_lt_two (by norm_num) (by norm_num) hv1
  have hrep : round4 (crashRaw "r1" 0 1.23454 (some 3583)).1 = ((1.2345 : ℚ) : ℝ) := by
    rw [hraw, round4_ratCast]
    rw [show round4q 1.23454 = 1.2345 by unfold round4q; norm_num]
  refine ⟨_, generateCrashMultiplier_ok "r1" 0 1.23454 (some 3583) 0 (by norm_num)
    (by norm_num) (by norm_num), hrep, ?_⟩
  obtain ⟨t, hlast⟩ := generateCrashCurve_getLast
    (crashRaw "r1" 0 1.23454 (some 3583)).1
    ((calculateGameDuration (crashRaw "r1" 0 1.23454 (some 3583)).1 : ℤ) : ℝ)
    (crashRaw "r1" 0 1.23454 (some 3583)).2
  refine ⟨⟨t, ((1.23454 : ℚ) : ℝ)⟩, ?_, ?_⟩
  · show (⟨t, ((1.23454 : ℚ) : ℝ)⟩ : CurvePoint) ∈
      (generateCrashCurve (crashRaw "r1" 0 1.23454 (some 3583)).1
        ((calculateGameDuration (crashRaw "r1" 0 1.23454 (some 3583)).1 : ℤ) : ℝ)
        (crashRaw "r1" 0 1.23454 (some 3583)).2).1
    rw [← hraw]
    have hopt : (⟨t, (crashRaw "r1" 0 1.23454 (some 3583)).1⟩ : CurvePoint) ∈
        ((generateCrashCurve (crashRaw "r1" 0 1.23454 (some 3583)).1
          ((calculateGameDuration (crashRaw "r1" 0 1.23454 (some 3583)).1 : ℤ) : ℝ)
          (crashRaw "r1" 0 1.23454 (some 3583)).2).1).getLast? := by
      rw [Option.mem_def, hlast]
    obtain ⟨hne, heq⟩ := List.mem_getLast?_eq_getLast hopt
    rw [heq]
    exact List.getLast_mem hne
  · show ¬(((1.23454 : ℚ) : ℝ) ≤ round4 (crashRaw "r1" 0 1.23454 (some 3583)).1)
    rw [hrep]
    intro hle
    have hq : (1.23454 : ℚ) ≤ 1.2345 := by exact_mod_cast hle
    norm_num at hq

/-- C4 (amended).  For every valid crash round with a nonnegative derived
seed: consecutive curve samples satisfy
`0.999 * previous - 1/20000 ≤ next` (the claimed non-decrease holds only up
to the `toFixed(4)` rounding slack of one half-unit in the fourth decimal),
and every sample is at most `crashMultiplier + 1/20000` (the last sample
carries the raw multiplier, which can exceed the rounded reported value by up
to `1/20000`). -/
theorem crash_curve_monotone_with_slack :
    ∀ (roundId : String) (lossBias maxWinMultiplier : ℚ) (customSeed : Option ℤ) (now : ℤ),
      0 ≤ lossBias → lossBias ≤ 1 → 1 ≤ maxWinMultiplier →
      0 ≤ crashFinalSeed roundId customSeed →
      ∃ r, generateCrashMultiplier roundId lossBias maxWinMultiplier customSeed now =
          Except.ok r ∧
        List.Chain' (fun a b => 0.999 * a.multiplier - 1 / 20000 ≤ b.multiplier)
          r.crashCurve ∧
        ∀ p ∈ r.crashCurve, p.multiplier ≤ r.crashMultiplier + 1 / 20000 := by
  intro roundId lossBias maxWinMultiplier customSeed now h1 h2 h3 hseed
  have hraw := crashRaw_ge_one roundId lossBias maxWinMultiplier customSeed h1 h3
  have hst := crashRaw_state_nonneg roundId lossBias maxWinMultiplier customSeed hseed
  obtain ⟨hchain, hbnd⟩ := generateCrashCurve_chain_and_bound
    (crashRaw roundId lossBias maxWinMultiplier customSeed).1
    ((calculateGameDuration (crashRaw roundId lossBias maxWinMultiplier customSeed).1 : ℤ) : ℝ)
    (crashRaw roundId lossBias maxWinMultiplier customSeed).2 hraw hst
  exact ⟨_, generateCrashMultiplier_ok roundId lossBias maxWinMultiplier customSeed now
    h1 h2 h3, hchain, hbnd⟩

/-- C4 witness. -/
theorem crash_curve_monotone_witness :
    ((0 : ℚ) ≤ 1 / 2 ∧ (1 / 2 : ℚ) ≤ 1 ∧ (1 : ℚ) ≤ 10 ∧
      0 ≤ crashFinalSeed "r1" (some 3583)) ∧
    (∃ r, generateCrashMultiplier "r1" (1 / 2) 10 (some 3583) 0 = Except.ok r ∧
      List.Chain' (fun a b => 0.999 * a.multiplier - 1 / 20000 ≤ b.multiplier)
        r.crashCurve ∧
      ∀ p ∈ r.crashCurve, p.multiplier ≤ r.crashMultiplier + 1 / 20000) :=
  ⟨⟨by norm_num, by norm_num, by norm_num, by decide⟩,
    crash_curve_monotone_with_slack "r1" (1 / 2) 10 (some 3583) 0
      (by norm_num) (by norm_num) (by norm_num) (by decide)⟩

/-- C5 (failing input).  With the default base seed, round id "r1" and
`lossBias = 0`, the generated round is categorized "loss", because the derived
seed is negative (`0xABCD1234` wraps to a negative 32-bit integer) and the
first PRNG draw is negative, hence below the loss bias 0.  The claim (and the
spec scenario) say a zero bias must always produce "win". -/
theorem crash_bias_zero_default_seed_gives_loss :
    Except.map CrashResult.roundType (generateCrashMultiplier "r1" 0 100 none 0) =
      Except.ok "loss" := by
  have hseed : crashFinalSeed "r1" none = -1412620341 := by decide
  have hstep : prngStep (-1412620341 : ℤ) = -938962176 := by decide
  have hval : decide (prngVal (-938962176 : ℤ) < (0 : ℚ)) = true := by
    rw [decide_eq_true_iff]
    unfold prngVal MODULUS
    norm_num
  unfold generateCrashMultiplier
  rw [if_neg (by norm_num), if_neg (by norm_num)]
  dsimp only
  rw [hseed, hstep, hval]
  rfl

/-- C8.  A crash cashout is accepted only when the cashout multiplier is
strictly below the crash multiplier and the effective cashout time (curve
position plus processing delay) lies strictly before the crash time; the two
spec scenarios: stake 100 at 2.0x against a 3.0x crash with zero delay and
duration 10000 succeeds with profit 100.00, and stake 100 at 2.0x against a
1.5x crash fails with profit -100.00. -/
theorem crash_cashout_validity_and_scenarios :
    (∀ cashoutMultiplier crashMultiplier cashoutDelay gameDuration betAmount : ℚ,
      (validateCrashCashout cashoutMultiplier crashMultiplier cashoutDelay gameDuration
          betAmount).isValid = true →
        cashoutMultiplier < crashMultiplier ∧
        cashoutMultiplier / crashMultiplier * gameDuration + cashoutDelay < gameDuration) ∧
    validateCrashCashout 2 3 0 10000 100 = { isValid := true, profit := 100 } ∧
    validateCrashCashout 2 1.5 100 10000 100 = { isValid := false, profit := -100 } := by
  refine ⟨?_,
    by norm_num [validateCrashCashout, validateCashout, calculateProfit, round2q],
    by norm_num [validateCrashCashout, validateCashout, calculateProfit, round2q]⟩
  intro cashoutMultiplier crashMultiplier cashoutDelay gameDuration betAmount h
  unfold validateCrashCashout validateCashout at h
  simp only at h
  split at h
  · simp at h
  · rename_i hlt
    refine ⟨lt_of_not_le hlt, ?_⟩
    exact of_decide_eq_true h

/-- C8 witness. -/
theorem crash_cashout_validity_witness :
    (validateCrashCashout 2 3 0 10000 100).isValid = true ∧
      (2 : ℚ) < 3 ∧ (2 : ℚ) / 3 * 10000 + 0 < 10000 :=
  ⟨by norm_num [validateCrashCashout, validateCashout],
    crash_cashout_validity_and_scenarios.1 2 3 0 10000 100
      (by norm_num [validateCrashCashout, validateCashout])⟩

/-- C9.  Out-of-order lifecycle calls on a `Round` are failure-reporting
no-ops: `end` on an idle round returns `false` and leaves the round (hence its
state) unchanged, and in general `start`, `end` and `complete` called outside
the idle → running → crashed order return `false` without touching the
round. -/
theorem round_illegal_transitions_are_noops :
    (∀ (r : Round) (now : ℤ), r.state = "idle" → r.«end» now = (false, r)) ∧
    (∀ (r : Round) (now : ℤ), r.state ≠ "idle" → r.start now = (false, r)) ∧
    (∀ (r : Round) (now : ℤ), r.state ≠ "running" → r.«end» now = (false, r)) ∧
    (∀ (r : Round), r.state ≠ "crashed" → r.complete = (false, r)) := by
  refine ⟨?_, ?_, ?_, ?_⟩
  · intro r now h
    unfold Round.«end»
    rw [if_pos]
    rw [h]
    decide
  · intro r now h
    unfold Round.start
    rw [if_pos h]
  · intro r now h
    unfold Round.«end»
    rw [if_pos h]
  · intro r h
    unfold Round.complete
    rw [if_pos h]

/-- C9 witness: a freshly created round is idle, and `end` on it fails and
leaves it unchanged. -/
theorem round_illegal_transitions_witness :
    (Round.create "w1" none none).state = "idle" ∧
      (Round.create "w1" none none).«end» 0 = (false, Round.create "w1" none none) :=
  ⟨rfl, round_illegal_transitions_are_noops.1 (Round.create "w1" none none) 0 rfl⟩

/-- C6.  Streak-breaking: whenever `generateWinningColor` takes the player-win
branch (`isWinRound = true`) and the three most recent entries of
`recentWinners` are the same color, the returned winning color is never that
color (it is filtered out of the cumulative-probability draw). -/
theorem player_win_never_repeats_streak_color
    (roundId : String) (lossBias : ℚ) (customSeed : Option ℤ) (ys : List String)
    (c : String) (now : ℤ) (r : ColorResult)
    (hok : generateWinningColor roundId lossBias customSeed (ys ++ [c, c, c]) now =
      Except.ok r)
    (hwin : r.isWinRound = true) : r.winningColor ≠ c := by
  unfold generateWinningColor at hok
  split at hok
  · exact absurd hok (by simp)
  · dsimp only at hok
    rcases hB : decide (prngVal (prngStep (colorFinalSeed roundId customSeed)) < lossBias) with
      _ | _
    · rw [hB] at hok
      simp only [Bool.false_eq_true, if_false] at hok
      rcases hpick : (selectWinningColor (prngStep (colorFinalSeed roundId customSeed))
          (ys ++ [c, c, c])).1 with _ | wc
      · rw [hpick] at hok
        exact absurd hok (by simp)
      · rw [hpick] at hok
        dsimp only at hok
        rcases hcp : colorProps wc with _ | props
        · rw [hcp] at hok
          exact absurd hok (by simp)
        · rw [hcp] at hok
          dsimp only at hok
          have hr := Except.ok.inj hok
          have : r.winningColor = wc := by rw [← hr]
          rw [this]
          exact selectWinningColor_breaks_streak hpick
    · rw [hB] at hok
      rw [if_pos rfl] at hok
      rcases hpick : (selectLosingColor (prngStep (colorFinalSeed roundId customSeed))
          (ys ++ [c, c, c])).1 with _ | wc
      · rw [hpick] at hok
        exact absurd hok (by simp)
      · rw [hpick] at hok
        dsimp only at hok
        rcases hcp : colorProps wc with _ | props
        · rw [hcp] at hok
          exact absurd hok (by simp)
        · rw [hcp] at hok
          dsimp only at hok
          have hr := Except.ok.inj hok
          have : r.isWinRound = false := by rw [← hr]; rfl
          rw [this] at hwin
          exact absurd hwin (by simp)

/-- C6 witness: seed 3583 on round id "r1" derives generator seed 0; with
bias 0 the player-win branch is taken, the history is a red streak of three,
and the draw returns "green". -/
theorem player_win_never_repeats_streak_color_witness :
    ∃ r, generateWinningColor "r1" 0 (some 3583) ([] ++ ["red", "red", "red"]) 0 =
        Except.ok r ∧ r.isWinRound = true ∧ r.winningColor ≠ "red" := by
  have hseed : colorFinalSeed "r1" (some 3583) = 0 := by decide
  have h1 : prngStep 0 = 12345 := by decide
  have h2 : prngStep 12345 = 1406932606 := by decide
  have hd1 : decide (prngVal (12345 : ℤ) < (0 : ℚ)) = false := by
    rw [decide_eq_false_iff_not]
    unfold prngVal MODULUS
    norm_num
  have hsel : (selectWinningColor 12345 ([] ++ ["red", "red", "red"])).1 = some "green" := by
    unfold selectWinningColor
    rw [if_pos (by simp)]
    rw [show ([] ++ ["red", "red", "red"] : List String).getLast?.getD "" = "red" by rfl]
    rw [if_pos (countConsecutiveWins_streak "red" [])]
    unfold selectColorByProbability
    dsimp only
    rw [h2]
    rw [show (availableColors.filter (fun c2 => c2 ≠ "red")) = ["green", "violet"] by rfl]
    have hg : ((colorProps "green").map ColorProps.probability).getD 0 = 0.35 := rfl
    have hv : ((colorProps "violet").map ColorProps.probability).getD 0 = 0.25 := rfl
    unfold selectColorByProbabilityGo
    rw [if_neg (by rw [hg]; unfold prngVal MODULUS; norm_num)]
    unfold selectColorByProbabilityGo
    rw [if_neg (by rw [hg, hv]; unfold prngVal MODULUS; norm_num)]
    rfl
  have hgen : generateWinningColor "r1" 0 (some 3583) ([] ++ ["red", "red", "red"]) 0 =
      Except.ok
        { winningColor := "green", colorName := "Green", hexColor := "#10B981",
          payoutMultiplier := 3, isWinRound := true, isPlatformWin := false,
          seed := 0, generatedAt := 0, roundId := "r1", lossBias := 0,
          probability := 0.35 } := by
    unfold generateWinningColor
    rw [if_neg (by norm_num)]
    dsimp only
    rw [hseed, h1, hd1]
    simp only [Bool.false_eq_true, if_false]
    rw [hsel]
    rfl
  refine ⟨_, hgen, rfl, ?_⟩
  exact player_win_never_repeats_streak_color "r1" 0 (some 3583) [] "red" 0 _ hgen rfl

/-- C7 (counterexample).  The claim says a losing wager's profit is exactly
`-stake` for every stake in [1, 100000]; but all monetary results pass through
2-decimal rounding, so the losing stake 1.005 yields profit -1.00, not
-1.005. -/
theorem color_payout_losing_profit_counterexample :
    ∃ pr, calculateColorPayout "red" (201 / 200) "green" = Except.ok pr ∧
      pr.payout = 0 ∧ pr.profit = -1 ∧ pr.profit ≠ -(201 / 200 : ℚ) := by
  have hcalc : calculateColorPayout "red" (201 / 200) "green" =
      Except.ok
        { isWin := false, winningColor := "green", betColor := "red", betAmount := 201 / 200,
          payout := round2q 0, profit := round2q (-(201 / 200)),
          payoutMultiplier := 3, houseEdge := HOUSE_EDGE,
          isCapped := decide (round2q (-(201 / 200)) = MAX_WIN_CAP) } := by
    unfold calculateColorPayout
    rw [if_neg (by unfold MIN_BET_AMOUNT; norm_num), if_neg (by unfold MAX_BET_AMOUNT; norm_num)]
    rfl
  refine ⟨_, hcalc, ?_, ?_, ?_⟩
  · show round2q 0 = 0
    unfold round2q
    norm_num
  · show round2q (-(201 / 200)) = -1
    unfold round2q
    norm_num
  · show round2q (-(201 / 200)) ≠ -(201 / 200)
    unfold round2q
    norm_num

/-- C7 (amended).  For every wager with stake in [1, 100000] against a valid
winning color: on a match the payout is `stake * payoutMultiplier * (1 - 0.05)`
capped at `stake + 10000`, rounded to 2 decimals, and the profit never exceeds
the configured maximum 10000; on a mismatch the payout is 0 and the profit is
`-stake` rounded to 2 decimals (hence exactly `-stake` for whole-cent stakes).
The wager of 50 on "violet" with winning color "violet" yields payout 665.00
and profit 615.00. -/
theorem color_payout_formula_cap_and_scenario :
    (∀ (color : String) (amount : ℚ) (winningColor : String),
      1 ≤ amount → amount ≤ 100000 → winningColor ∈ availableColors →
      ∃ props pr, colorProps winningColor = some props ∧
        calculateColorPayout color amount winningColor = Except.ok pr ∧
        (color = winningColor →
          pr.payout = round2q (min (amount * props.payoutMultiplier * (1 - 0.05))
            (amount + 10000)) ∧ pr.profit ≤ 10000) ∧
        (color ≠ winningColor → pr.payout = 0 ∧ pr.profit = round2q (-amount) ∧
          (∀ k : ℤ, amount = (k : ℚ) / 100 → pr.profit = -amount))) ∧
    (∃ pr, calculateColorPayout "violet" 50 "violet" = Except.ok pr ∧
      pr.payout = 665 ∧ pr.profit = 615) := by
  constructor
  · intro color amount winningColor h1 h2 hmem
    have hmem2 : winningColor = "red" ∨ winningColor = "green" ∨ winningColor = "violet" := by
      simpa [availableColors] using hmem
    have hprops : ∃ props, colorProps winningColor = some props := by
      rcases hmem2 with h | h | h
      · exact ⟨_, by rw [h]; rfl⟩
      · exact ⟨_, by rw [h]; rfl⟩
      · exact ⟨_, by rw [h]; rfl⟩
    obtain ⟨props, hp⟩ := hprops
    unfold calculateColorPayout
    rw [if_neg (by unfold MIN_BET_AMOUNT; linarith), if_neg (by unfold MAX_BET_AMOUNT; linarith),
      hp]
    dsimp only
    refine ⟨props, _, rfl, rfl, ?_, ?_⟩
    · intro hwin
      simp only [decide_eq_true hwin, if_true]
      have harith : amount * props.payoutMultiplier - amount * props.payoutMultiplier *
          HOUSE_EDGE = amount * props.payoutMultiplier * (1 - 0.05) := by
        unfold HOUSE_EDGE
        ring
      constructor
      · show round2q (if MAX_WIN_CAP < amount * props.payoutMultiplier -
            amount * props.payoutMultiplier * HOUSE_EDGE - amount then amount + MAX_WIN_CAP
            else amount * props.payoutMultiplier - amount * props.payoutMultiplier * HOUSE_EDGE) =
          round2q (min (amount * props.payoutMultiplier * (1 - 0.05)) (amount + 10000))
        split
        · rename_i hcap
          rw [harith] at hcap
          unfold MAX_WIN_CAP at hcap ⊢
          rw [min_eq_right (by linarith)]
        · rename_i hcap
          rw [harith] at hcap
          unfold MAX_WIN_CAP at hcap
          rw [harith, min_eq_left (by linarith)]
      · show round2q ((if MAX_WIN_CAP < amount * props.payoutMultiplier -
            amount * props.payoutMultiplier * HOUSE_EDGE - amount then amount + MAX_WIN_CAP
            else amount * props.payoutMultiplier - amount * props.payoutMultiplier * HOUSE_EDGE) -
            amount) ≤ 10000
        have hle : (if MAX_WIN_CAP < amount * props.payoutMultiplier -
            amount * props.payoutMultiplier * HOUSE_EDGE - amount then amount + MAX_WIN_CAP
            else amount * props.payoutMultiplier - amount * props.payoutMultiplier * HOUSE_EDGE) -
            amount ≤ 10000 := by
          split
          · unfold MAX_WIN_CAP
            linarith
          · rename_i hcap
            unfold MAX_WIN_CAP at hcap
            linarith
        calc round2q _ ≤ round2q 10000 := round2q_mono hle
          _ = 10000 := by unfold round2q; norm_num
    · intro hloss
      simp only [decide_eq_false hloss, Bool.false_eq_true, if_false]
      refine ⟨by show round2q 0 = 0; unfold round2q; norm_num, trivial, ?_⟩
      intro k hk
      show round2q (-amount) = -amount
      rw [hk]
      unfold round2q
      rw [show (-((k : ℚ) / 100) * 100 + 1 / 2) = 1 / 2 + (-k : ℤ) by push_cast; ring]
      rw [Int.floor_add_int]
      rw [show ⌊(1 / 2 : ℚ)⌋ = 0 by norm_num]
      push_cast
      ring
  · have hcalc : calculateColorPayout "violet" 50 "violet" =
        Except.ok
          { isWin := true, winningColor := "violet", betColor := "violet", betAmount := 50,
            payout := round2q (if MAX_WIN_CAP < 50 * (14 : ℚ) - 50 * 14 * HOUSE_EDGE - 50
              then 50 + MAX_WIN_CAP else 50 * 14 - 50 * 14 * HOUSE_EDGE),
            profit := round2q ((if MAX_WIN_CAP < 50 * (14 : ℚ) - 50 * 14 * HOUSE_EDGE - 50
              then 50 + MAX_WIN_CAP else 50 * 14 - 50 * 14 * HOUSE_EDGE) - 50),
            payoutMultiplier := 14, houseEdge := HOUSE_EDGE,
            isCapped := decide (round2q ((if MAX_WIN_CAP < 50 * (14 : ℚ) - 50 * 14 * HOUSE_EDGE -
              50 then 50 + MAX_WIN_CAP else 50 * 14 - 50 * 14 * HOUSE_EDGE) - 50) =
              MAX_WIN_CAP) } := by
      unfold calculateColorPayout
      rw [if_neg (by unfold MIN_BET_AMOUNT; norm_num),
        if_neg (by unfold MAX_BET_AMOUNT; norm_num)]
      rfl
    refine ⟨_, hcalc, ?_, ?_⟩
    · show round2q (if MAX_WIN_CAP < 50 * (14 : ℚ) - 50 * 14 * HOUSE_EDGE - 50 then 50 +
        MAX_WIN_CAP else 50 * 14 - 50 * 14 * HOUSE_EDGE) = 665
      rw [if_neg (by unfold MAX_WIN_CAP HOUSE_EDGE; norm_num)]
      unfold HOUSE_EDGE round2q
      norm_num
    · show round2q ((if MAX_WIN_CAP < 50 * (14 : ℚ) - 50 * 14 * HOUSE_EDGE - 50 then 50 +
        MAX_WIN_CAP else 50 * 14 - 50 * 14 * HOUSE_EDGE) - 50) = 615
      rw [if_neg (by unfold MAX_WIN_CAP HOUSE_EDGE; norm_num)]
      unfold HOUSE_EDGE round2q
      norm_num

/-- C7 witness. -/
theorem color_payout_formula_witness :
    ((1 : ℚ) ≤ 50 ∧ (50 : ℚ) ≤ 100000 ∧ "violet" ∈ availableColors) ∧
      ∃ props pr, colorProps "violet" = some props ∧
        calculateColorPayout "red" 50 "violet" = Except.ok pr ∧
        ("red" = "violet" →
          pr.payout = round2q (min (50 * props.payoutMultiplier * (1 - 0.05)) (50 + 10000)) ∧
          pr.profit ≤ 10000) ∧
        ("red" ≠ "violet" → pr.payout = 0 ∧ pr.profit = round2q (-50) ∧
          (∀ k : ℤ, (50 : ℚ) = (k : ℚ) / 100 → pr.profit = -50)) :=
  ⟨⟨by norm_num, by norm_num, by simp [availableColors]⟩,
    color_payout_formula_cap_and_scenario.1 "red" 50 "violet" (by norm_num) (by norm_num)
      (by simp [availableColors])⟩

/-- C10 (failing input).  A malformed wager (stake 0.5, below the minimum 1)
sitting between two valid wagers makes `processColorRoundPayouts` abort with
the validation throw: the malformed wager is not marked failed, the following
wager is never settled, and the round totals are never written — the claim
says the wager should be excluded and the rest should still settle. -/
theorem color_settlement_aborts_on_malformed_wager :
    processColorRoundPayouts
        { roundId := "color_round_1", winningColor := "red",
          bets := [{ color := "red", amount := 10, result := none, payout := none, profit := none },
                   { color := "green", amount := 1/2, result := none, payout := none,
                     profit := none },
                   { color := "violet", amount := 20, result := none, payout := none,
                     profit := none }],
          totalPayout := 0 } =
      Except.error "Bet amount must be at least 1" := by
  norm_num [processColorRoundPayouts, calculateColorPayout, colorProps, round2q,
    MIN_BET_AMOUNT, MAX_BET_AMOUNT, MAX_WIN_CAP, HOUSE_EDGE, List.foldlM]
  rfl

end Aviiator
